import Mathlib

/-!
Verification of the break-node helpers of this repository:
`pyvrp/utils/break_nodes.py` (`add_per_vehicle_break_nodes`,
`add_one_break_per_vehicle`) and `pyvrp/utils/repair_breaks.py`
(`repair_one_break_per_route`, `remove_break_only_routes`).

The problem-data container (`pyvrp._pyvrp.ProblemData`, `Client`, `Depot`,
`VehicleType`) and the constant `MAX_VALUE` are external to the two source
files; they are modelled from the specification's description of the
consumed interfaces.  Integer matrices are modelled as a shape together
with an entry function, mirroring numpy's view of a 2-D array; each numpy
operation used by the source (`np.zeros`, `np.full`, block assignment,
row/column assignment, `np.fill_diagonal`) gets its own definition.
-/

/-- Modelled from the spec: a 2-D integer numpy array, as used for the
distance and duration matrices.  `entry i j` is only meaningful for
`i < rows` and `j < cols`. -/
structure NpMat where
  rows : Nat
  cols : Nat
  entry : Nat → Nat → Int

/-- Modelled from the spec: `np.zeros((n, n))`. -/
def npZeros (n : Nat) : NpMat :=
  { rows := n, cols := n, entry := fun _ _ => 0 }

/-- Modelled from the spec: `np.full((n, n), v)`. -/
def npFull (n : Nat) (v : Int) : NpMat :=
  { rows := n, cols := n, entry := fun _ _ => v }

/-- Modelled from the spec: the numpy block assignment
`m[r0:r1, c0:c1] = f` (with `f` giving the assigned values). -/
def setBlock (m : NpMat) (r0 r1 c0 c1 : Nat) (f : Nat → Nat → Int) : NpMat :=
  { rows := m.rows, cols := m.cols,
    entry := fun i j =>
      if r0 ≤ i ∧ i < r1 ∧ c0 ≤ j ∧ j < c1 then f i j else m.entry i j }

/-- Modelled from the spec: the numpy row assignment `m[r, :] = v`. -/
def setRow (m : NpMat) (r : Nat) (v : Int) : NpMat :=
  { rows := m.rows, cols := m.cols,
    entry := fun i j => if i = r ∧ j < m.cols then v else m.entry i j }

/-- Modelled from the spec: the numpy column assignment `m[:, c] = v`. -/
def setCol (m : NpMat) (c : Nat) (v : Int) : NpMat :=
  { rows := m.rows, cols := m.cols,
    entry := fun i j => if j = c ∧ i < m.rows then v else m.entry i j }

/-- Modelled from the spec: `np.fill_diagonal(m, v)`. -/
def fillDiagonal (m : NpMat) (v : Int) : NpMat :=
  { rows := m.rows, cols := m.cols,
    entry := fun i j => if i = j ∧ i < m.rows ∧ j < m.cols then v else m.entry i j }

/-- Modelled from the spec: the sentinel "unreachable" cost constant
`pyvrp.constants.MAX_VALUE` (not under src/); a designated large numeric
value standing in for "no traversable edge".  Its exact magnitude is
irrelevant to the claims, which treat it symbolically. -/
def MAX_VALUE : Int := 2 ^ 43

/-- Modelled from the spec: a depot location of `pyvrp._pyvrp` (not under
src/): coordinates, service duration, display name. -/
structure Depot where
  x : Int
  y : Int
  service_duration : Int
  name : String
deriving DecidableEq

/-- Modelled from the spec: a client location of `pyvrp._pyvrp` (not under
src/): coordinates, demand/pickup vectors, service duration, time window,
release time, prize, required flag, optional group, display name. -/
structure Client where
  x : Int
  y : Int
  delivery : List Int
  pickup : List Int
  service_duration : Int
  tw_early : Int
  tw_late : Int
  release_time : Int
  prize : Int
  required : Bool
  group : Option Nat
  name : String
deriving DecidableEq

/-- Modelled from the spec: a vehicle type of `pyvrp._pyvrp` (not under
src/): count available, routing profile id, display name, plus further
routing parameters (represented here by `capacity` and `fixed_cost`)
inherited unchanged by `replace`. -/
structure VehicleType where
  num_available : Nat
  profile : Nat
  name : String
  capacity : List Int
  fixed_cost : Int
deriving DecidableEq

/-- Modelled from the spec: `VehicleType.replace(num_available=..,
profile=.., name=..)` of `pyvrp._pyvrp` (not under src/): clone the type,
overriding only the three given fields. -/
def VehicleType.replaceAPN (vt : VehicleType) (n : Nat) (p : Nat) (s : String) : VehicleType :=
  { vt with num_available := n, profile := p, name := s }

/-- Modelled from the spec: the immutable `pyvrp._pyvrp.ProblemData`
aggregate (not under src/): depots, clients, vehicle types, and one
distance/duration matrix per routing profile. -/
structure ProblemData where
  depots : List Depot
  clients : List Client
  vehicle_types : List VehicleType
  distance_matrices : List NpMat
  duration_matrices : List NpMat

/-- Modelled from the spec: `ProblemData.num_depots`. -/
def ProblemData.num_depots (d : ProblemData) : Nat := d.depots.length

/-- Modelled from the spec: `ProblemData.num_clients`. -/
def ProblemData.num_clients (d : ProblemData) : Nat := d.clients.length

/-- Modelled from the spec: `ProblemData.num_locations`; depots occupy the
lowest flat indices, followed by clients. -/
def ProblemData.num_locations (d : ProblemData) : Nat := d.num_depots + d.num_clients

/-- Modelled from the spec: `ProblemData.num_profiles`. -/
def ProblemData.num_profiles (d : ProblemData) : Nat := d.distance_matrices.length

/-- Modelled from the spec: `ProblemData.num_vehicles`, the total count of
available vehicles over all vehicle types. -/
def ProblemData.num_vehicles (d : ProblemData) : Nat :=
  (d.vehicle_types.map VehicleType.num_available).sum

/-- Modelled from the spec: `ProblemData.distance_matrix(profile=p)`. -/
def ProblemData.distance_matrix (d : ProblemData) (p : Nat) : NpMat :=
  d.distance_matrices.getD p (npZeros 0)

/-- Modelled from the spec: `ProblemData.duration_matrix(profile=p)`. -/
def ProblemData.duration_matrix (d : ProblemData) (p : Nat) : NpMat :=
  d.duration_matrices.getD p (npZeros 0)

/-- Modelled from the spec: well-formedness guaranteed by the external
`ProblemData` container: at least one routing profile, as many duration
as distance matrices, and every matrix square of size `num_locations`. -/
def ProblemData.WF (d : ProblemData) : Prop :=
  1 ≤ d.distance_matrices.length ∧
  d.duration_matrices.length = d.distance_matrices.length ∧
  (∀ M ∈ d.distance_matrices, M.rows = d.num_locations ∧ M.cols = d.num_locations) ∧
  (∀ M ∈ d.duration_matrices, M.rows = d.num_locations ∧ M.cols = d.num_locations)

/-- Construction of the i-th break client, from `break_nodes.py` lines
74-89: coordinates from the reference depot, zero delivery and pickup,
the resolved service duration and time window, release time 0, prize 0,
required flag per input, display name `break_i`. -/
def breakClient (depot : Depot) (service tw_early tw_late : Int)
    (make_required : Bool) (i : Nat) : Client :=
  { x := depot.x, y := depot.y, delivery := [0], pickup := [0],
    service_duration := service, tw_early := tw_early, tw_late := tw_late,
    release_time := 0, prize := 0, required := make_required, group := none,
    name := "break_" ++ toString i }

/-- Per-profile matrix expansion of `break_nodes.py` lines 104-122: start
from zeros of the new size, copy the original matrix into the top-left
block, if not `zero_travel` replicate row 0 into the new rows over the old
columns and column 0 into the new columns over the old rows, then zero the
diagonal.  The same sequence of numpy operations is applied to the
distance and the duration matrix, so it is shared here. -/
def synthMat (zero_travel : Bool) (old_num new_num : Nat) (old : NpMat) : NpMat :=
  let m := npZeros new_num
  let m := setBlock m 0 old_num 0 old_num old.entry
  let m :=
    if zero_travel then m
    else
      let m := setBlock m old_num new_num 0 old_num (fun _ j => old.entry 0 j)
      setBlock m 0 old_num old_num new_num (fun i _ => old.entry i 0)
  fillDiagonal m 0

/-- Reference-depot lookup of `break_nodes.py` line 60 (the index has
been checked, so the fallback is never used). -/
def refDepot (data : ProblemData) (depot_idx : Int) : Depot :=
  data.depots.getD depot_idx.toNat { x := 0, y := 0, service_duration := 0, name := "" }

/-- Service-duration resolution of `break_nodes.py` line 68: the
override when given, else the reference depot's service duration. -/
def breakServiceVal (depot : Depot) (break_service : Option Int) : Int :=
  match break_service with
  | none => depot.service_duration
  | some s => s

/-- Time-window start resolution of `break_nodes.py` lines 70-71: the
override when given, else 11:00 in minutes. -/
def breakTwEarly (break_tw : Option (Int × Int)) : Int :=
  match break_tw with
  | none => (11 * 60 : Int)
  | some t => t.1

/-- Time-window end resolution of `break_nodes.py` lines 70-72: the
override when given, else 14:00 in minutes. -/
def breakTwLate (break_tw : Option (Int × Int)) : Int :=
  match break_tw with
  | none => (14 * 60 : Int)
  | some t => t.2

/-- Body of the success branch of `add_per_vehicle_break_nodes`
(`break_nodes.py` lines 60-140), factored out so the whole function is
the two leading checks followed by this computation. -/
def synthResult (data : ProblemData) (num_breaks depot_idx : Int)
    (make_required zero_travel : Bool) (break_service : Option Int)
    (break_tw : Option (Int × Int)) : ProblemData × List Nat :=
  let depot := refDepot data depot_idx
  let service := breakServiceVal depot break_service
  let tw_early := breakTwEarly break_tw
  let tw_late := breakTwLate break_tw
  let K := num_breaks.toNat
  let break_clients := (List.range K).map (breakClient depot service tw_early tw_late make_required)
  let new_clients := data.clients ++ break_clients
  let old_num_locations := data.num_locations
  let new_num_locations := old_num_locations + K
  let new_dist_mats := (List.range data.num_profiles).map
    (fun p => synthMat zero_travel old_num_locations new_num_locations (data.distance_matrix p))
  let new_dur_mats := (List.range data.num_profiles).map
    (fun p => synthMat zero_travel old_num_locations new_num_locations (data.duration_matrix p))
  let new_data := { data with
                    clients := new_clients
                    distance_matrices := new_dist_mats
                    duration_matrices := new_dur_mats }
  let break_indices := (List.range K).map (fun i => old_num_locations + i)
  (new_data, break_indices)

/-- Translation of `add_per_vehicle_break_nodes` (`break_nodes.py` lines
22-140).  Python's `raise IndexError` is modelled by `Except.error`; the
count and depot index are Python ints, hence `Int`. -/
def add_per_vehicle_break_nodes (data : ProblemData) (num_breaks : Int)
    (depot_idx : Int) (make_required : Bool) (zero_travel : Bool)
    (break_service : Option Int) (break_tw : Option (Int × Int)) :
    Except String (ProblemData × List Nat) :=
  if num_breaks ≤ 0 then Except.ok (data, [])
  else if depot_idx < 0 ∨ depot_idx ≥ (data.depots.length : Int) then
    Except.error "depot_idx out of range"
  else
    Except.ok (synthResult data num_breaks depot_idx make_required zero_travel break_service break_tw)

/-- Body of the forbid loop of `break_nodes.py` lines 214-220, for one
break index `b`: skip the assigned break node, otherwise set row `b` and
column `b` to `MAX_VALUE`. -/
def forbidOne (assigned : Nat) (m : NpMat) (b : Nat) : NpMat :=
  if b = assigned then m
  else setCol (setRow m b MAX_VALUE) b MAX_VALUE

/-- Iteration of `forbidOne` over `n` consecutive break indices starting
at `b`, mirroring `for b in range(old_num_locations, new_num_locations)`. -/
def forbidBreaksAux (assigned : Nat) : NpMat → Nat → Nat → NpMat
  | m, _, 0 => m
  | m, b, n + 1 => forbidBreaksAux assigned (forbidOne assigned m b) (b + 1) n

/-- Forbid loop of `break_nodes.py` lines 214-220 over the half-open range
`[lo, hi)`. -/
def forbidBreaks (m : NpMat) (lo hi assigned : Nat) : NpMat :=
  forbidBreaksAux assigned m lo (hi - lo)

/-- Per-vehicle matrix pair construction of `break_nodes.py` lines
190-224: copy the base matrices, re-expand both (filling with
`MAX_VALUE`) when the base distance matrix is not of the new size, forbid
all break rows/columns other than the assigned one, then zero the
diagonals.  The single shape test on the distance matrix governs both
matrices, as in the source. -/
def vehMats (old_num new_num assigned : Nat) (base_dist base_dur : NpMat) : NpMat × NpMat :=
  let p :=
    if base_dist.rows ≠ new_num then
      (setBlock (npFull new_num MAX_VALUE) 0 old_num 0 old_num base_dist.entry,
       setBlock (npFull new_num MAX_VALUE) 0 old_num 0 old_num base_dur.entry)
    else (base_dist, base_dur)
  (fillDiagonal (forbidBreaks p.1 old_num new_num assigned) 0,
   fillDiagonal (forbidBreaks p.2 old_num new_num assigned) 0)

/-- Body of the success branch of `add_one_break_per_vehicle`
(`break_nodes.py` lines 173-248), given the instance returned by the
synthesizer, factored out so the whole function is the vehicle-count
check, the synthesizer call, and this computation. -/
def oneBreakResult (data new_data : ProblemData) : ProblemData × List Nat :=
  let num_vehicles := data.num_vehicles
  let old_num_locations := data.num_locations
  let base_dist := new_data.distance_matrix 0
  let base_dur := new_data.duration_matrix 0
  let new_num_locations := new_data.num_locations
  let dist_mats := (List.range num_vehicles).map
    (fun veh => (vehMats old_num_locations new_num_locations
      (old_num_locations + veh) base_dist base_dur).1)
  let dur_mats := (List.range num_vehicles).map
    (fun veh => (vehMats old_num_locations new_num_locations
      (old_num_locations + veh) base_dist base_dur).2)
  let orig_vtypes := data.vehicle_types
  let new_vehicle_types := (List.range num_vehicles).map
    (fun veh => (orig_vtypes.getD (veh % orig_vtypes.length)
      { num_available := 0, profile := 0, name := "", capacity := [], fixed_cost := 0 }
      ).replaceAPN 1 veh (toString veh))
  let final_data := { new_data with
                      vehicle_types := new_vehicle_types
                      distance_matrices := dist_mats
                      duration_matrices := dur_mats }
  let break_indices := (List.range num_vehicles).map (fun i => old_num_locations + i)
  (final_data, break_indices)

/-- Translation of `add_one_break_per_vehicle` (`break_nodes.py` lines
143-248). -/
def add_one_break_per_vehicle (data : ProblemData) (break_service : Int)
    (break_tw : Int × Int) (depot_idx : Int) :
    Except String (ProblemData × List Nat) :=
  let num_vehicles := data.num_vehicles
  if num_vehicles = 0 then Except.ok (data, [])
  else
    match add_per_vehicle_break_nodes data (num_vehicles : Int) depot_idx
        true true (some break_service) (some break_tw) with
    | Except.error e => Except.error e
    | Except.ok (new_data, _) => Except.ok (oneBreakResult data new_data)

/-- Break insertion position and splice of `repair_breaks.py` lines
73-75: insert the break at position 1 when the route is non-empty, else
at position 0. -/
def insertBreakVisits (visits : List Nat) (b : Nat) : List Nat :=
  let insert_pos := if 1 ≤ visits.length then 1 else 0
  visits.insertIdx insert_pos b

/-- Main loop of `repair_one_break_per_route` (`repair_breaks.py` lines
51-76), threading the `used_breaks` set (as a list with membership
semantics) and the `all_ok` flag. -/
def repairGo (break_indices : List Nat) :
    List (List Nat) → List Nat → Bool → List (List Nat) × Bool
  | [], _, all_ok => ([], all_ok)
  | visits :: rest, used_breaks, all_ok =>
    match break_indices.find? (fun b => decide (b ∉ used_breaks)) with
    | none =>
      let t := repairGo break_indices rest used_breaks false
      (visits :: t.1, t.2)
    | some b =>
      let t := repairGo break_indices rest (b :: used_breaks) all_ok
      (insertBreakVisits visits b :: t.1, t.2)

/-- Translation of `repair_one_break_per_route` (`repair_breaks.py` lines
17-78), over an already-extracted list of visit lists (the structural
solution/list fallback of the source is input adaptation only). -/
def repair_one_break_per_route (routes : List (List Nat)) (break_indices : List Nat) :
    List (List Nat) × Bool :=
  repairGo break_indices routes [] true

/-- Translation of `remove_break_only_routes` (`repair_breaks.py` lines
81-107): keep routes having at least one non-break visit, count the
rest. -/
def remove_break_only_routes (final_routes : List (List Nat)) (break_indices : List Nat) :
    List (List Nat) × Nat :=
  match final_routes with
  | [] => ([], 0)
  | r :: rest =>
    let t := remove_break_only_routes rest break_indices
    if r.any (fun v => decide (v ∉ break_indices)) then (r :: t.1, t.2)
    else (t.1, t.2 + 1)

/-- Positional form of the greedy assignment of
`repair_one_break_per_route`: route `i` is paired with break index `i`
as long as break indices remain, later routes are kept as they are.
Used to characterize `repairGo` when the break indices are distinct. -/
def repairPairs : List (List Nat) → List Nat → List (List Nat)
  | [], _ => []
  | r :: rest, [] => r :: repairPairs rest []
  | r :: rest, b :: bsRest => insertBreakVisits r b :: repairPairs rest bsRest

/-- Extraction of the instance from a successful result (first component),
with an empty instance as the error placeholder. -/
def okPD (r : Except String (ProblemData × List Nat)) : ProblemData :=
  match r with
  | Except.ok p => p.1
  | Except.error _ =>
    { depots := [], clients := [], vehicle_types := [],
      distance_matrices := [], duration_matrices := [] }

/-- Extraction of the break-index list from a successful result (second
component), with the empty list as the error placeholder. -/
def okBis (r : Except String (ProblemData × List Nat)) : List Nat :=
  match r with
  | Except.ok p => p.2
  | Except.error _ => []

/-- Decimal character list of a natural number, by structural value
recursion; reference definition used to reason about `Nat.repr`. -/
def natRepChars (n : Nat) : List Char :=
  if _h : n < 10 then [Nat.digitChar n]
  else natRepChars (n / 10) ++ [Nat.digitChar (n % 10)]
decreasing_by exact Nat.div_lt_self (by omega) (by omega)

/-- Decimal decoding of a character list, the left inverse of
`natRepChars`. -/
def natDecodeChars (cs : List Char) : Nat :=
  cs.foldl (fun acc c => acc * 10 + (c.toNat - 48)) 0

/-- Example depot for concrete witnesses. -/
def exDepot : Depot :=
  { x := 0, y := 0, service_duration := 7, name := "d0" }

/-- Example client for concrete witnesses. -/
def exClient1 : Client :=
  { x := 1, y := 2, delivery := [3], pickup := [1], service_duration := 4,
    tw_early := 0, tw_late := 100, release_time := 0, prize := 0,
    required := true, group := none, name := "c1" }

/-- Second example client for concrete witnesses. -/
def exClient2 : Client :=
  { x := 5, y := 5, delivery := [2], pickup := [0], service_duration := 6,
    tw_early := 10, tw_late := 90, release_time := 0, prize := 0,
    required := true, group := none, name := "c2" }

/-- Example vehicle types for concrete witnesses; two types with three
vehicles in total, so the round-robin cloning is exercised. -/
def exVehicleTypes : List VehicleType :=
  [{ num_available := 2, profile := 0, name := "vtA", capacity := [10], fixed_cost := 3 },
   { num_available := 1, profile := 0, name := "vtB", capacity := [20], fixed_cost := 5 }]

/-- Example 3x3 distance matrix for concrete witnesses, with a nonzero
diagonal so that the diagonal-zeroing steps are observable. -/
def exDist : NpMat :=
  { rows := 3, cols := 3, entry := fun i j => (3 * i + j : Int) + 1 }

/-- Example 3x3 duration matrix for concrete witnesses. -/
def exDur : NpMat :=
  { rows := 3, cols := 3, entry := fun i j => (10 * i + j : Int) + 2 }

/-- Example problem instance for concrete witnesses: one depot, two
clients, three vehicles over two vehicle types, one routing profile. -/
def exData : ProblemData :=
  { depots := [exDepot], clients := [exClient1, exClient2],
    vehicle_types := exVehicleTypes,
    distance_matrices := [exDist], duration_matrices := [exDur] }

/-! ## Helper lemmas about `remove_break_only_routes` -/

/-- Pointwise reformulation of the keep predicate of
`remove_break_only_routes`: a route has a non-break visit exactly when
not every visit is a break. -/
theorem keep_pred_eq (bs : List Nat) (r : List Nat) :
    (r.any (fun v => decide (v ∉ bs))) = decide (¬ ∀ v ∈ r, v ∈ bs) := by
  by_cases hall : ∀ v ∈ r, v ∈ bs
  · have h1 : decide (¬ ∀ v ∈ r, v ∈ bs) = false := decide_eq_false (not_not_intro hall)
    rw [h1, List.any_eq_false]
    intro v hv
    simp [hall v hv]
  · have h1 : decide (¬ ∀ v ∈ r, v ∈ bs) = true := decide_eq_true hall
    rw [h1, List.any_eq_true]
    push_neg at hall
    obtain ⟨v, hv, hnb⟩ := hall
    exact ⟨v, hv, by simp [hnb]⟩

/-- Closed form of `remove_break_only_routes`: the kept routes are a
`filter` by "not every visit is a break" and the removed count is the
length of the complementary filter. -/
theorem remove_break_spec (rs : List (List Nat)) (bs : List Nat) :
    remove_break_only_routes rs bs =
      (rs.filter (fun r => decide (¬ ∀ v ∈ r, v ∈ bs)),
       (rs.filter (fun r => decide (∀ v ∈ r, v ∈ bs))).length) := by
  induction rs with
  | nil => rfl
  | cons r rest ih =>
    unfold remove_break_only_routes
    rw [ih, List.filter_cons, List.filter_cons, keep_pred_eq bs r]
    by_cases hall : ∀ v ∈ r, v ∈ bs
    · have h1 : decide (¬ ∀ v ∈ r, v ∈ bs) = false := decide_eq_false (not_not_intro hall)
      have h2 : decide (∀ v ∈ r, v ∈ bs) = true := decide_eq_true hall
      rw [h1, h2]
      simp
    · have h1 : decide (¬ ∀ v ∈ r, v ∈ bs) = true := decide_eq_true hall
      have h2 : decide (∀ v ∈ r, v ∈ bs) = false := decide_eq_false hall
      rw [h1, h2]
      simp

/-- Filter-length complement identity used for the removed count. -/
theorem filter_length_compl {α : Type} (l : List α) (p q : α → Bool)
    (hpq : ∀ a, q a = !(p a)) :
    (l.filter p).length + (l.filter q).length = l.length := by
  induction l with
  | nil => rfl
  | cons a rest ih =>
    rw [List.filter_cons, List.filter_cons, hpq a]
    cases hp : p a <;> simp [hp] <;> omega

/-! ## Claim C9 -/

/-- C9: `remove_break_only_routes` discards exactly the routes whose
every visit is a break index (keeping the rest), returns the removed
count as the number of such routes, returns `([], 0)` on an empty route
list, and counts a zero-visit route as removed. -/
theorem C9_remove_break_only (rs : List (List Nat)) (bs : List Nat) :
    (remove_break_only_routes rs bs).1
        = rs.filter (fun r => decide (¬ ∀ v ∈ r, v ∈ bs)) ∧
    (remove_break_only_routes rs bs).2
        = (rs.filter (fun r => decide (∀ v ∈ r, v ∈ bs))).length ∧
    remove_break_only_routes [] bs = ([], 0) ∧
    remove_break_only_routes ([] :: rs) bs
        = ((remove_break_only_routes rs bs).1, (remove_break_only_routes rs bs).2 + 1) := by
  refine ⟨by rw [remove_break_spec], by rw [remove_break_spec], rfl, ?_⟩
  rw [remove_break_spec, remove_break_spec, List.filter_cons, List.filter_cons]
  simp

/-! ## Claim C10 -/

/-- C10: `remove_break_only_routes` keeps routes unmodified and in their
original relative order (the kept list is a sublist of the input), and
kept count plus removed count equals the input route count. -/
theorem C10_remove_break_only_invariants (rs : List (List Nat)) (bs : List Nat) :
    List.Sublist (remove_break_only_routes rs bs).1 rs ∧
    (remove_break_only_routes rs bs).1.length + (remove_break_only_routes rs bs).2
      = rs.length := by
  rw [remove_break_spec]
  refine ⟨List.filter_sublist rs, filter_length_compl rs _ _ ?_⟩
  intro r
  rw [decide_not, Bool.not_not]

/-! ## Claim C4 -/

/-- C4: for every instance and every requested count `K ≥ 0`, a
successful `add_per_vehicle_break_nodes` call appends exactly `K` new
clients (the original client list is a prefix of the result) and
returns a break-index list of length `K` of contiguous indices starting
at the prior total location count; `K = 0` returns the input instance
itself with an empty break-index list. -/
theorem C4_synthesizer_counts (data : ProblemData) (nb di : Int)
    (mr zt : Bool) (obs : Option Int) (obtw : Option (Int × Int))
    (hK : 0 ≤ nb) :
    (nb = 0 →
      add_per_vehicle_break_nodes data nb di mr zt obs obtw = Except.ok (data, [])) ∧
    (∀ out bis,
      add_per_vehicle_break_nodes data nb di mr zt obs obtw = Except.ok (out, bis) →
      out.clients.length = data.clients.length + nb.toNat ∧
      out.clients.take data.clients.length = data.clients ∧
      bis.length = nb.toNat ∧
      bis = (List.range nb.toNat).map (fun i => data.num_locations + i)) := by
  constructor
  · intro h0
    subst h0
    simp [add_per_vehicle_break_nodes]
  · intro out bis h
    unfold add_per_vehicle_break_nodes at h
    by_cases h1 : nb ≤ 0
    · have h0 : nb = 0 := le_antisymm h1 hK
      subst h0
      rw [if_pos le_rfl] at h
      injection h with h'
      injection h' with ho hb
      subst ho
      subst hb
      simp
    · rw [if_neg h1] at h
      by_cases h2 : di < 0 ∨ di ≥ (data.depots.length : Int)
      · rw [if_pos h2] at h
        exact absurd h (by simp)
      · rw [if_neg h2] at h
        injection h with h'
        have ho : out = (synthResult data nb di mr zt obs obtw).1 := by rw [h']
        have hb : bis = (synthResult data nb di mr zt obs obtw).2 := by rw [h']
        subst ho
        subst hb
        refine ⟨by simp [synthResult], ?_, by simp [synthResult], rfl⟩
        simp only [synthResult]
        exact List.take_left data.clients _

/-- Witness for C4 at the example instance with two requested breaks. -/
theorem C4_witness :
    (0 : Int) ≤ 2 ∧
    (((2 : Int) = 0 →
      add_per_vehicle_break_nodes exData 2 0 true true none none = Except.ok (exData, [])) ∧
    (∀ out bis,
      add_per_vehicle_break_nodes exData 2 0 true true none none = Except.ok (out, bis) →
      out.clients.length = exData.clients.length + (2 : Int).toNat ∧
      out.clients.take exData.clients.length = exData.clients ∧
      bis.length = (2 : Int).toNat ∧
      bis = (List.range (2 : Int).toNat).map (fun i => exData.num_locations + i))) :=
  ⟨by norm_num, C4_synthesizer_counts exData 2 0 true true none none (by norm_num)⟩

/-! ## Claim C6 -/

/-- Counterexample for C6: with a requested break count of `0` and the
invalid depot index `5` on an instance having a single depot, the
function does not fail; the `num_breaks <= 0` short circuit precedes the
depot-index check, so the call returns the input unchanged. -/
theorem C6_counterexample :
    add_per_vehicle_break_nodes exData 0 5 true true none none = Except.ok (exData, []) ∧
    ∀ e, add_per_vehicle_break_nodes exData 0 5 true true none none ≠ Except.error e := by
  constructor
  · rfl
  · intro e h
    rw [show add_per_vehicle_break_nodes exData 0 5 true true none none
        = Except.ok (exData, []) from rfl] at h
    exact Except.noConfusion h

/-- C6 as amended: for every instance and every requested break count
that is at least 1, the call fails with the out-of-range error exactly
when the depot index is outside `[0, num_depots)`, and this is the only
possible failure (no other input is validated). -/
theorem C6_amended_depot_validation (data : ProblemData) (nb di : Int)
    (mr zt : Bool) (obs : Option Int) (obtw : Option (Int × Int))
    (h1 : 1 ≤ nb) :
    (add_per_vehicle_break_nodes data nb di mr zt obs obtw
        = Except.error "depot_idx out of range"
      ↔ (di < 0 ∨ (data.depots.length : Int) ≤ di)) ∧
    (∀ e, add_per_vehicle_break_nodes data nb di mr zt obs obtw = Except.error e →
      e = "depot_idx out of range") := by
  have hn : ¬ nb ≤ 0 := by omega
  constructor
  · constructor
    · intro h
      by_contra hd
      unfold add_per_vehicle_break_nodes at h
      rw [if_neg hn, if_neg (by exact fun hc => hd (by omega))] at h
      exact Except.noConfusion h
    · intro hd
      unfold add_per_vehicle_break_nodes
      rw [if_neg hn, if_pos (by omega)]
  · intro e h
    unfold add_per_vehicle_break_nodes at h
    rw [if_neg hn] at h
    by_cases h2 : di < 0 ∨ di ≥ (data.depots.length : Int)
    · rw [if_pos h2] at h
      exact (Except.error.inj h).symm
    · rw [if_neg h2] at h
      exact absurd h (by simp)

/-- Witness for the amended C6 at the example instance: one break
requested, depot index `5` invalid for the single depot. -/
theorem C6_amended_witness :
    (1 : Int) ≤ 1 ∧
    ((add_per_vehicle_break_nodes exData 1 5 true true none none
        = Except.error "depot_idx out of range"
      ↔ ((5 : Int) < 0 ∨ (exData.depots.length : Int) ≤ 5)) ∧
    (∀ e, add_per_vehicle_break_nodes exData 1 5 true true none none = Except.error e →
      e = "depot_idx out of range")) :=
  ⟨le_refl 1, C6_amended_depot_validation exData 1 5 true true none none (le_refl 1)⟩

/-! ## Helper lemmas about `repair_one_break_per_route` -/

/-- Congruence for `List.find?` under a predicate equal on the list's
elements. -/
theorem find?_congr_mem {α : Type} (p q : α → Bool) :
    ∀ (l : List α), (∀ a ∈ l, p a = q a) → l.find? p = l.find? q := by
  intro l
  induction l with
  | nil => intro _; rfl
  | cons a t ih =>
    intro h
    rw [List.find?_cons, List.find?_cons, h a (List.mem_cons_self a t),
      ih (fun x hx => h x (List.mem_cons_of_mem a hx))]

/-- First-available greedy choice: when the used set is exactly the first
`k` break indices of a duplicate-free list, the first unused break index
is the `k`-th one. -/
theorem find?_first_unused (bs : List Nat) (hnd : bs.Nodup) :
    ∀ k : Nat, bs.find? (fun b => decide (b ∉ bs.take k)) = bs[k]? := by
  induction bs with
  | nil => intro k; simp
  | cons a t ih =>
    intro k
    cases k with
    | zero => simp [List.find?_cons]
    | succ k =>
      rw [List.take_succ_cons, List.find?_cons]
      have hpa : (decide (a ∉ a :: t.take k)) = false := by simp
      rw [hpa]
      have hat : a ∉ t := (List.nodup_cons.mp hnd).1
      have hstep : t.find? (fun b => decide (b ∉ a :: t.take k))
          = t.find? (fun b => decide (b ∉ t.take k)) := by
        apply find?_congr_mem
        intro b hb
        apply decide_eq_decide.mpr
        apply not_congr
        have hba : b ≠ a := fun hba => hat (hba ▸ hb)
        simp [List.mem_cons, hba]
      rw [hstep, ih (List.nodup_cons.mp hnd).2 k, List.getElem?_cons_succ]

/-- Branch equation of `repairGo` on a non-empty route list when an
unused break index is found. -/
theorem repairGo_cons_some (bs : List Nat) (visits : List Nat)
    (rest : List (List Nat)) (used : List Nat) (ok : Bool) (b : Nat)
    (hf : bs.find? (fun x => decide (x ∉ used)) = some b) :
    repairGo bs (visits :: rest) used ok =
      (insertBreakVisits visits b :: (repairGo bs rest (b :: used) ok).1,
       (repairGo bs rest (b :: used) ok).2) := by
  simp only [decide_not] at hf
  simp [repairGo, hf]

/-- Branch equation of `repairGo` on a non-empty route list when no
unused break index remains. -/
theorem repairGo_cons_none (bs : List Nat) (visits : List Nat)
    (rest : List (List Nat)) (used : List Nat) (ok : Bool)
    (hf : bs.find? (fun x => decide (x ∉ used)) = none) :
    repairGo bs (visits :: rest) used ok =
      (visits :: (repairGo bs rest used false).1, (repairGo bs rest used false).2) := by
  simp only [decide_not] at hf
  simp [repairGo, hf]

/-- Characterization of the loop of `repair_one_break_per_route` when the
break indices are duplicate-free and the used set holds exactly the
first `k` of them: the remaining routes are paired positionally with the
remaining break indices, and the flag survives exactly when enough break
indices remain. -/
theorem repairGo_spec (bs : List Nat) (hnd : bs.Nodup) :
    ∀ (routes : List (List Nat)) (k : Nat) (used : List Nat) (ok : Bool),
    (∀ x, x ∈ used ↔ x ∈ bs.take k) →
    repairGo bs routes used ok =
      (repairPairs routes (bs.drop k), ok && decide (routes.length ≤ bs.length - k)) := by
  intro routes
  induction routes with
  | nil =>
    intro k used ok _
    simp [repairGo, repairPairs]
  | cons visits rest ih =>
    intro k used ok hmem
    have hpred : (fun b => decide (b ∉ used)) = (fun b => decide (b ∉ bs.take k)) := by
      funext b
      exact decide_eq_decide.mpr (not_congr (hmem b))
    by_cases hk : k < bs.length
    · have hfind : bs.find? (fun b => decide (b ∉ used)) = some bs[k] := by
        rw [hpred, find?_first_unused bs hnd k, List.getElem?_eq_getElem hk]
      have hmem' : ∀ x, x ∈ bs[k] :: used ↔ x ∈ bs.take (k + 1) := by
        intro x
        rw [List.mem_cons, hmem x, List.take_succ, List.getElem?_eq_getElem hk]
        simp only [Option.toList_some, List.mem_append, List.mem_singleton]
        tauto
      rw [repairGo_cons_some bs visits rest used ok bs[k] hfind]
      rw [ih (k + 1) (bs[k] :: used) ok hmem', List.drop_eq_getElem_cons hk]
      simp only [repairPairs]
      have hflag : decide (rest.length ≤ bs.length - (k + 1))
          = decide ((visits :: rest).length ≤ bs.length - k) := by
        apply decide_eq_decide.mpr
        simp only [List.length_cons]
        omega
      rw [hflag]
    · have hfind : bs.find? (fun b => decide (b ∉ used)) = none := by
        rw [hpred, find?_first_unused bs hnd k, List.getElem?_eq_none (by omega)]
      rw [repairGo_cons_none bs visits rest used ok hfind]
      rw [ih k used false hmem]
      have hdrop : bs.drop k = [] := List.drop_eq_nil_of_le (by omega)
      rw [hdrop]
      simp only [repairPairs, Bool.false_and, List.length_cons]
      have hflag : decide ((rest.length + 1 : Nat) ≤ bs.length - k) = false := by
        apply decide_eq_false
        omega
      rw [hflag, Bool.and_false]

/-- Length preservation of the positional pairing. -/
theorem repairPairs_length : ∀ (routes : List (List Nat)) (bs : List Nat),
    (repairPairs routes bs).length = routes.length := by
  intro routes
  induction routes with
  | nil => intro bs; cases bs <;> rfl
  | cons r rest ih => intro bs; cases bs <;> simp [repairPairs, ih]

/-- Index-wise description of the positional pairing: while break
indices remain the route is augmented, afterwards it is returned
unmodified. -/
theorem repairPairs_getElem? : ∀ (routes : List (List Nat)) (bs : List Nat) (i : Nat),
    (∀ r b, routes[i]? = some r → bs[i]? = some b →
      (repairPairs routes bs)[i]? = some (insertBreakVisits r b)) ∧
    (∀ r, routes[i]? = some r → bs[i]? = none →
      (repairPairs routes bs)[i]? = some r) := by
  intro routes
  induction routes with
  | nil =>
    intro bs i
    constructor
    · intro r b hr _
      simp at hr
    · intro r hr _
      simp at hr
  | cons v rest ih =>
    intro bs i
    cases bs with
    | nil =>
      cases i with
      | zero =>
        refine ⟨fun r b _ hb => by simp at hb, fun r hr _ => ?_⟩
        simp only [List.getElem?_cons_zero] at hr
        simp [repairPairs, ← Option.some.inj hr]
      | succ i =>
        refine ⟨fun r b _ hb => by simp at hb, fun r hr _ => ?_⟩
        simp only [List.getElem?_cons_succ] at hr
        simp only [repairPairs, List.getElem?_cons_succ]
        exact ((ih [] i).2 r hr (by simp))
    | cons b0 bt =>
      cases i with
      | zero =>
        refine ⟨fun r b hr hb => ?_, fun r hr hb => by simp at hb⟩
        simp only [List.getElem?_cons_zero] at hr hb
        simp [repairPairs, ← Option.some.inj hr, ← Option.some.inj hb]
      | succ i =>
        refine ⟨fun r b hr hb => ?_, fun r hr hb => ?_⟩
        · simp only [List.getElem?_cons_succ] at hr hb
          simp only [repairPairs, List.getElem?_cons_succ]
          exact ((ih bt i).1 r b hr hb)
        · simp only [List.getElem?_cons_succ] at hr hb
          simp only [repairPairs, List.getElem?_cons_succ]
          exact ((ih bt i).2 r hr hb)

/-! ## Claim C2 -/

/-- C2: for distinct break indices, `repair_one_break_per_route`
preserves the route count, succeeds exactly when there are at least as
many break indices as routes, gives route `i` the `i`-th break index
(the first one not yet used) spliced at position 1 (position 0 for an
empty route) while break indices remain, and returns the remaining
routes unmodified. -/
theorem C2_repair_one_break (routes : List (List Nat)) (bs : List Nat)
    (hnd : bs.Nodup) :
    (repair_one_break_per_route routes bs).1.length = routes.length ∧
    ((repair_one_break_per_route routes bs).2 = true ↔ routes.length ≤ bs.length) ∧
    (∀ (i : Nat) (r : List Nat) (b : Nat), routes[i]? = some r → bs[i]? = some b →
      (repair_one_break_per_route routes bs).1[i]? = some (insertBreakVisits r b)) ∧
    (∀ (i : Nat) (r : List Nat), routes[i]? = some r → bs[i]? = none →
      (repair_one_break_per_route routes bs).1[i]? = some r) := by
  have h := repairGo_spec bs hnd routes 0 [] true (by simp)
  unfold repair_one_break_per_route
  rw [h]
  simp only [List.drop_zero, Bool.true_and, Nat.sub_zero]
  refine ⟨repairPairs_length routes bs, by simp, ?_, ?_⟩
  · intro i r b hr hb
    exact (repairPairs_getElem? routes bs i).1 r b hr hb
  · intro i r hr hb
    exact (repairPairs_getElem? routes bs i).2 r hr hb

/-- Witness for C2 at a concrete solution: two routes (one non-empty,
one empty) and three distinct break indices. -/
theorem C2_witness :
    ([9, 10, 11] : List Nat).Nodup ∧
    ((repair_one_break_per_route [[4, 5], []] [9, 10, 11]).1.length
        = ([[4, 5], []] : List (List Nat)).length ∧
    ((repair_one_break_per_route [[4, 5], []] [9, 10, 11]).2 = true
        ↔ ([[4, 5], []] : List (List Nat)).length ≤ ([9, 10, 11] : List Nat).length) ∧
    (∀ (i : Nat) (r : List Nat) (b : Nat), ([[4, 5], []] : List (List Nat))[i]? = some r →
      ([9, 10, 11] : List Nat)[i]? = some b →
      (repair_one_break_per_route [[4, 5], []] [9, 10, 11]).1[i]? = some (insertBreakVisits r b)) ∧
    (∀ (i : Nat) (r : List Nat), ([[4, 5], []] : List (List Nat))[i]? = some r →
      ([9, 10, 11] : List Nat)[i]? = none →
      (repair_one_break_per_route [[4, 5], []] [9, 10, 11]).1[i]? = some r)) :=
  ⟨by decide, C2_repair_one_break [[4, 5], []] [9, 10, 11] (by decide)⟩

/-! ## Shape lemmas for the matrix operations -/

/-- Rows of a block assignment. -/
@[simp] theorem setBlock_rows (m : NpMat) (r0 r1 c0 c1 : Nat) (f : Nat → Nat → Int) :
    (setBlock m r0 r1 c0 c1 f).rows = m.rows := rfl

/-- Columns of a block assignment. -/
@[simp] theorem setBlock_cols (m : NpMat) (r0 r1 c0 c1 : Nat) (f : Nat → Nat → Int) :
    (setBlock m r0 r1 c0 c1 f).cols = m.cols := rfl

/-- Rows of a diagonal fill. -/
@[simp] theorem fillDiagonal_rows (m : NpMat) (v : Int) : (fillDiagonal m v).rows = m.rows := rfl

/-- Columns of a diagonal fill. -/
@[simp] theorem fillDiagonal_cols (m : NpMat) (v : Int) : (fillDiagonal m v).cols = m.cols := rfl

/-- Rows of a single forbid step. -/
@[simp] theorem forbidOne_rows (a : Nat) (m : NpMat) (b : Nat) : (forbidOne a m b).rows = m.rows := by
  unfold forbidOne
  split <;> rfl

/-- Columns of a single forbid step. -/
@[simp] theorem forbidOne_cols (a : Nat) (m : NpMat) (b : Nat) : (forbidOne a m b).cols = m.cols := by
  unfold forbidOne
  split <;> rfl

/-- Rows of the forbid iteration. -/
@[simp] theorem forbidBreaksAux_rows (a : Nat) :
    ∀ (n b : Nat) (m : NpMat), (forbidBreaksAux a m b n).rows = m.rows := by
  intro n
  induction n with
  | zero => intro b m; rfl
  | succ n ih => intro b m; rw [forbidBreaksAux, ih, forbidOne_rows]

/-- Columns of the forbid iteration. -/
@[simp] theorem forbidBreaksAux_cols (a : Nat) :
    ∀ (n b : Nat) (m : NpMat), (forbidBreaksAux a m b n).cols = m.cols := by
  intro n
  induction n with
  | zero => intro b m; rfl
  | succ n ih => intro b m; rw [forbidBreaksAux, ih, forbidOne_cols]

/-- Rows of the forbid loop. -/
@[simp] theorem forbidBreaks_rows (m : NpMat) (lo hi a : Nat) :
    (forbidBreaks m lo hi a).rows = m.rows := forbidBreaksAux_rows a _ lo m

/-- Columns of the forbid loop. -/
@[simp] theorem forbidBreaks_cols (m : NpMat) (lo hi a : Nat) :
    (forbidBreaks m lo hi a).cols = m.cols := forbidBreaksAux_cols a _ lo m

/-- Rows of a synthesized per-profile matrix. -/
@[simp] theorem synthMat_rows (zt : Bool) (o n : Nat) (old : NpMat) :
    (synthMat zt o n old).rows = n := by
  cases zt <;> rfl

/-- Columns of a synthesized per-profile matrix. -/
@[simp] theorem synthMat_cols (zt : Bool) (o n : Nat) (old : NpMat) :
    (synthMat zt o n old).cols = n := by
  cases zt <;> rfl

/-- Entry of a zero matrix. -/
@[simp] theorem npZeros_entry (n i j : Nat) : (npZeros n).entry i j = 0 := rfl

/-- Entry of a constant matrix. -/
@[simp] theorem npFull_entry (n : Nat) (v : Int) (i j : Nat) : (npFull n v).entry i j = v := rfl

/-- Entry of a block assignment. -/
theorem setBlock_entry (m : NpMat) (r0 r1 c0 c1 : Nat) (f : Nat → Nat → Int) (i j : Nat) :
    (setBlock m r0 r1 c0 c1 f).entry i j =
      if r0 ≤ i ∧ i < r1 ∧ c0 ≤ j ∧ j < c1 then f i j else m.entry i j := rfl

/-- Entry of a row assignment. -/
theorem setRow_entry (m : NpMat) (r : Nat) (v : Int) (i j : Nat) :
    (setRow m r v).entry i j = if i = r ∧ j < m.cols then v else m.entry i j := rfl

/-- Entry of a column assignment. -/
theorem setCol_entry (m : NpMat) (c : Nat) (v : Int) (i j : Nat) :
    (setCol m c v).entry i j = if j = c ∧ i < m.rows then v else m.entry i j := rfl

/-- Entry of a diagonal fill. -/
theorem fillDiagonal_entry (m : NpMat) (v : Int) (i j : Nat) :
    (fillDiagonal m v).entry i j =
      if i = j ∧ i < m.rows ∧ j < m.cols then v else m.entry i j := rfl

/-- Unfolded entry of a synthesized per-profile matrix with
`zero_travel` set. -/
theorem synthMat_entry_t (o n : Nat) (old : NpMat) (i j : Nat) :
    (synthMat true o n old).entry i j =
      if i = j ∧ i < n ∧ j < n then 0
      else if 0 ≤ i ∧ i < o ∧ 0 ≤ j ∧ j < o then old.entry i j else 0 := rfl

/-- Unfolded entry of a synthesized per-profile matrix with
`zero_travel` unset. -/
theorem synthMat_entry_f (o n : Nat) (old : NpMat) (i j : Nat) :
    (synthMat false o n old).entry i j =
      if i = j ∧ i < n ∧ j < n then 0
      else if 0 ≤ i ∧ i < o ∧ o ≤ j ∧ j < n then old.entry i 0
      else if o ≤ i ∧ i < n ∧ 0 ≤ j ∧ j < o then old.entry 0 j
      else if 0 ≤ i ∧ i < o ∧ 0 ≤ j ∧ j < o then old.entry i j else 0 := rfl

/-! ## Entry lemmas for the synthesized per-profile matrix -/

/-- Diagonal entries of a synthesized matrix are zero. -/
theorem synthMat_entry_diag (zt : Bool) (o n : Nat) (old : NpMat) (i : Nat)
    (hi : i < n) :
    (synthMat zt o n old).entry i i = 0 := by
  cases zt
  · rw [synthMat_entry_f, if_pos ⟨rfl, hi, hi⟩]
  · rw [synthMat_entry_t, if_pos ⟨rfl, hi, hi⟩]

/-- Off-diagonal entries of the top-left block of a synthesized matrix
equal the original matrix's entries, whatever the flag. -/
theorem synthMat_entry_topLeft (zt : Bool) (o n : Nat) (old : NpMat) (i j : Nat)
    (hi : i < o) (hj : j < o) (hne : i ≠ j) :
    (synthMat zt o n old).entry i j = old.entry i j := by
  cases zt
  · rw [synthMat_entry_f]
    split_ifs <;> first | rfl | omega
  · rw [synthMat_entry_t]
    split_ifs <;> first | rfl | omega

/-- Under `zero_travel`, every entry in a new row or column off the
diagonal is zero. -/
theorem synthMat_entry_new_zero (o n : Nat) (old : NpMat) (i j : Nat)
    (hnew : o ≤ i ∨ o ≤ j) (hne : i ≠ j) :
    (synthMat true o n old).entry i j = 0 := by
  rw [synthMat_entry_t]
  split_ifs <;> first | rfl | omega

/-- Without `zero_travel`, a new row over the old columns replicates row
0 of the original matrix. -/
theorem synthMat_entry_newRow (o n : Nat) (old : NpMat) (i j : Nat)
    (hi : o ≤ i) (hin : i < n) (hj : j < o) :
    (synthMat false o n old).entry i j = old.entry 0 j := by
  rw [synthMat_entry_f]
  split_ifs <;> first | rfl | omega

/-- Without `zero_travel`, a new column over the old rows replicates
column 0 of the original matrix. -/
theorem synthMat_entry_newCol (o n : Nat) (old : NpMat) (i j : Nat)
    (hi : i < o) (hj : o ≤ j) (hjn : j < n) :
    (synthMat false o n old).entry i j = old.entry i 0 := by
  rw [synthMat_entry_f]
  split_ifs <;> first | rfl | omega

/-! ## Structure of the synthesizer result -/

/-- Depots are unchanged by the synthesizer. -/
theorem synthResult_fst_depots (data : ProblemData) (nb di : Int) (mr zt : Bool)
    (obs : Option Int) (obtw : Option (Int × Int)) :
    (synthResult data nb di mr zt obs obtw).1.depots = data.depots := rfl

/-- Vehicle types are unchanged by the synthesizer. -/
theorem synthResult_fst_vtypes (data : ProblemData) (nb di : Int) (mr zt : Bool)
    (obs : Option Int) (obtw : Option (Int × Int)) :
    (synthResult data nb di mr zt obs obtw).1.vehicle_types = data.vehicle_types := rfl

/-- Clients of the synthesizer result: the originals followed by the
break clients. -/
theorem synthResult_fst_clients (data : ProblemData) (nb di : Int) (mr zt : Bool)
    (obs : Option Int) (obtw : Option (Int × Int)) :
    (synthResult data nb di mr zt obs obtw).1.clients =
      data.clients ++ (List.range nb.toNat).map
        (breakClient (refDepot data di) (breakServiceVal (refDepot data di) obs)
          (breakTwEarly obtw) (breakTwLate obtw) mr) := rfl

/-- Distance matrices of the synthesizer result. -/
theorem synthResult_fst_dists (data : ProblemData) (nb di : Int) (mr zt : Bool)
    (obs : Option Int) (obtw : Option (Int × Int)) :
    (synthResult data nb di mr zt obs obtw).1.distance_matrices =
      (List.range data.num_profiles).map
        (fun p => synthMat zt data.num_locations (data.num_locations + nb.toNat)
          (data.distance_matrix p)) := rfl

/-- Duration matrices of the synthesizer result. -/
theorem synthResult_fst_durs (data : ProblemData) (nb di : Int) (mr zt : Bool)
    (obs : Option Int) (obtw : Option (Int × Int)) :
    (synthResult data nb di mr zt obs obtw).1.duration_matrices =
      (List.range data.num_profiles).map
        (fun p => synthMat zt data.num_locations (data.num_locations + nb.toNat)
          (data.duration_matrix p)) := rfl

/-- Break indices of the synthesizer result. -/
theorem synthResult_snd (data : ProblemData) (nb di : Int) (mr zt : Bool)
    (obs : Option Int) (obtw : Option (Int × Int)) :
    (synthResult data nb di mr zt obs obtw).2 =
      (List.range nb.toNat).map (fun i => data.num_locations + i) := rfl

/-- Location count of the synthesizer result. -/
theorem synthResult_num_locations (data : ProblemData) (nb di : Int) (mr zt : Bool)
    (obs : Option Int) (obtw : Option (Int × Int)) :
    (synthResult data nb di mr zt obs obtw).1.num_locations
      = data.num_locations + nb.toNat := by
  simp only [ProblemData.num_locations, ProblemData.num_depots, ProblemData.num_clients,
    synthResult_fst_depots, synthResult_fst_clients, List.length_append, List.length_map,
    List.length_range]
  omega

/-- Element selection from a mapped range. -/
theorem getD_map_range {α : Type} (P p : Nat) (f : Nat → α) (d : α) (hp : p < P) :
    ((List.range P).map f).getD p d = f p := by
  rw [List.getD_eq_getElem?_getD, List.getElem?_map, List.getElem?_range hp]
  rfl

/-- Distance-matrix accessor on the synthesizer result, for a profile of
the input instance. -/
theorem synth_distance_matrix (data : ProblemData) (nb di : Int) (mr zt : Bool)
    (obs : Option Int) (obtw : Option (Int × Int)) (p : Nat)
    (hp : p < data.num_profiles) :
    (synthResult data nb di mr zt obs obtw).1.distance_matrix p =
      synthMat zt data.num_locations (data.num_locations + nb.toNat)
        (data.distance_matrix p) := by
  rw [ProblemData.distance_matrix, synthResult_fst_dists, getD_map_range _ _ _ _ hp]

/-- Duration-matrix accessor on the synthesizer result, for a profile of
the input instance. -/
theorem synth_duration_matrix (data : ProblemData) (nb di : Int) (mr zt : Bool)
    (obs : Option Int) (obtw : Option (Int × Int)) (p : Nat)
    (hp : p < data.num_profiles) :
    (synthResult data nb di mr zt obs obtw).1.duration_matrix p =
      synthMat zt data.num_locations (data.num_locations + nb.toNat)
        (data.duration_matrix p) := by
  rw [ProblemData.duration_matrix, synthResult_fst_durs, getD_map_range _ _ _ _ hp]

/-- Inversion of a successful synthesizer call with a positive break
count: the depot index was valid and the result is the success-branch
computation. -/
theorem add_per_vehicle_ok_inv (data : ProblemData) (nb di : Int) (mr zt : Bool)
    (obs : Option Int) (obtw : Option (Int × Int)) (out : ProblemData) (bis : List Nat)
    (h1 : 1 ≤ nb)
    (h : add_per_vehicle_break_nodes data nb di mr zt obs obtw = Except.ok (out, bis)) :
    (0 ≤ di ∧ di < (data.depots.length : Int)) ∧
    out = (synthResult data nb di mr zt obs obtw).1 ∧
    bis = (synthResult data nb di mr zt obs obtw).2 := by
  unfold add_per_vehicle_break_nodes at h
  rw [if_neg (by omega)] at h
  by_cases h2 : di < 0 ∨ di ≥ (data.depots.length : Int)
  · rw [if_pos h2] at h
    exact absurd h (by simp)
  · rw [if_neg h2] at h
    push_neg at h2
    injection h with h'
    exact ⟨⟨h2.1, h2.2⟩, by rw [h'], by rw [h']⟩

/-! ## Claim C7 -/

/-- C7: for a successful synthesizer call with at least one break, for
every profile of the input: the original matrix occupies the top-left
block (off the diagonal), with `zero_travel` every new off-diagonal
row/column entry is zero, without it the new rows replicate row 0 and
the new columns replicate column 0 of the original matrices, and the
diagonal is zeroed regardless of the flag. -/
theorem C7_matrix_blocks (data : ProblemData) (nb di : Int) (mr zt : Bool)
    (obs : Option Int) (obtw : Option (Int × Int)) (out : ProblemData) (bis : List Nat)
    (h1 : 1 ≤ nb)
    (h : add_per_vehicle_break_nodes data nb di mr zt obs obtw = Except.ok (out, bis))
    (p : Nat) (hp : p < data.num_profiles) :
    (∀ i j, i < data.num_locations → j < data.num_locations → i ≠ j →
      (out.distance_matrix p).entry i j = (data.distance_matrix p).entry i j ∧
      (out.duration_matrix p).entry i j = (data.duration_matrix p).entry i j) ∧
    (zt = true → ∀ i j, (data.num_locations ≤ i ∨ data.num_locations ≤ j) → i ≠ j →
      (out.distance_matrix p).entry i j = 0 ∧
      (out.duration_matrix p).entry i j = 0) ∧
    (zt = false →
      (∀ i j, data.num_locations ≤ i → i < data.num_locations + nb.toNat →
        j < data.num_locations →
        (out.distance_matrix p).entry i j = (data.distance_matrix p).entry 0 j ∧
        (out.duration_matrix p).entry i j = (data.duration_matrix p).entry 0 j) ∧
      (∀ i j, i < data.num_locations → data.num_locations ≤ j →
        j < data.num_locations + nb.toNat →
        (out.distance_matrix p).entry i j = (data.distance_matrix p).entry i 0 ∧
        (out.duration_matrix p).entry i j = (data.duration_matrix p).entry i 0)) ∧
    (∀ i, i < data.num_locations + nb.toNat →
      (out.distance_matrix p).entry i i = 0 ∧
      (out.duration_matrix p).entry i i = 0) := by
  obtain ⟨_, ho, _⟩ := add_per_vehicle_ok_inv data nb di mr zt obs obtw out bis h1 h
  subst ho
  rw [synth_distance_matrix data nb di mr zt obs obtw p hp,
    synth_duration_matrix data nb di mr zt obs obtw p hp]
  refine ⟨?_, ?_, ?_, ?_⟩
  · intro i j hi hj hne
    exact ⟨synthMat_entry_topLeft zt _ _ _ i j hi hj hne,
      synthMat_entry_topLeft zt _ _ _ i j hi hj hne⟩
  · intro hzt i j hnew hne
    subst hzt
    exact ⟨synthMat_entry_new_zero _ _ _ i j hnew hne,
      synthMat_entry_new_zero _ _ _ i j hnew hne⟩
  · intro hzt
    subst hzt
    constructor
    · intro i j hi hin hj
      exact ⟨synthMat_entry_newRow _ _ _ i j hi hin hj,
        synthMat_entry_newRow _ _ _ i j hi hin hj⟩
    · intro i j hi hj hjn
      exact ⟨synthMat_entry_newCol _ _ _ i j hi hj hjn,
        synthMat_entry_newCol _ _ _ i j hi hj hjn⟩
  · intro i hi
    exact ⟨synthMat_entry_diag zt _ _ _ i hi, synthMat_entry_diag zt _ _ _ i hi⟩

/-- Witness for C7 at the example instance with two breaks and
`zero_travel` unset (exercising the replication branch). -/
theorem C7_witness :
    (1 : Int) ≤ 2 ∧
    ((∀ i j, i < exData.num_locations → j < exData.num_locations → i ≠ j →
      ((okPD (add_per_vehicle_break_nodes exData 2 0 true false none none)).distance_matrix 0).entry i j
        = (exData.distance_matrix 0).entry i j ∧
      ((okPD (add_per_vehicle_break_nodes exData 2 0 true false none none)).duration_matrix 0).entry i j
        = (exData.duration_matrix 0).entry i j) ∧
    (false = true → ∀ i j, (exData.num_locations ≤ i ∨ exData.num_locations ≤ j) → i ≠ j →
      ((okPD (add_per_vehicle_break_nodes exData 2 0 true false none none)).distance_matrix 0).entry i j = 0 ∧
      ((okPD (add_per_vehicle_break_nodes exData 2 0 true false none none)).duration_matrix 0).entry i j = 0) ∧
    (false = false →
      (∀ i j, exData.num_locations ≤ i → i < exData.num_locations + (2 : Int).toNat →
        j < exData.num_locations →
        ((okPD (add_per_vehicle_break_nodes exData 2 0 true false none none)).distance_matrix 0).entry i j
          = (exData.distance_matrix 0).entry 0 j ∧
        ((okPD (add_per_vehicle_break_nodes exData 2 0 true false none none)).duration_matrix 0).entry i j
          = (exData.duration_matrix 0).entry 0 j) ∧
      (∀ i j, i < exData.num_locations → exData.num_locations ≤ j →
        j < exData.num_locations + (2 : Int).toNat →
        ((okPD (add_per_vehicle_break_nodes exData 2 0 true false none none)).distance_matrix 0).entry i j
          = (exData.distance_matrix 0).entry i 0 ∧
        ((okPD (add_per_vehicle_break_nodes exData 2 0 true false none none)).duration_matrix 0).entry i j
          = (exData.duration_matrix 0).entry i 0)) ∧
    (∀ i, i < exData.num_locations + (2 : Int).toNat →
      ((okPD (add_per_vehicle_break_nodes exData 2 0 true false none none)).distance_matrix 0).entry i i = 0 ∧
      ((okPD (add_per_vehicle_break_nodes exData 2 0 true false none none)).duration_matrix 0).entry i i = 0)) :=
  ⟨by norm_num,
   C7_matrix_blocks exData 2 0 true false none none
     (okPD (add_per_vehicle_break_nodes exData 2 0 true false none none))
     (okBis (add_per_vehicle_break_nodes exData 2 0 true false none none))
     (by norm_num) rfl 0 (by decide)⟩

/-! ## Structure of the per-vehicle profile builder result -/

/-- Inversion of a successful `add_one_break_per_vehicle` call with a
non-empty fleet: the synthesizer succeeded on one break per vehicle and
the result is the success-branch computation over its output. -/
theorem add_one_break_ok_inv (data : ProblemData) (bsv : Int) (btw : Int × Int)
    (di : Int) (out : ProblemData) (bis : List Nat)
    (hn : data.num_vehicles ≠ 0)
    (h : add_one_break_per_vehicle data bsv btw di = Except.ok (out, bis)) :
    (0 ≤ di ∧ di < (data.depots.length : Int)) ∧
    out = (oneBreakResult data
      (synthResult data (data.num_vehicles : Int) di true true (some bsv) (some btw)).1).1 ∧
    bis = (oneBreakResult data
      (synthResult data (data.num_vehicles : Int) di true true (some bsv) (some btw)).1).2 := by
  unfold add_one_break_per_vehicle at h
  rw [if_neg hn] at h
  cases hs : add_per_vehicle_break_nodes data (data.num_vehicles : Int) di
      true true (some bsv) (some btw) with
  | error e =>
    rw [hs] at h
    exact absurd h (by simp)
  | ok nd =>
    obtain ⟨nd1, nd2⟩ := nd
    rw [hs] at h
    injection h with h'
    obtain ⟨hd, ho, _⟩ := add_per_vehicle_ok_inv data (data.num_vehicles : Int) di
      true true (some bsv) (some btw) nd1 nd2 (by omega) hs
    subst ho
    exact ⟨hd, by rw [h'], by rw [h']⟩

/-- Vehicle types of the profile-builder result: one singleton type per
vehicle, cloned round-robin from the original types. -/
theorem oneBreakResult_vtypes (data ndata : ProblemData) :
    (oneBreakResult data ndata).1.vehicle_types =
      (List.range data.num_vehicles).map
        (fun veh => (data.vehicle_types.getD (veh % data.vehicle_types.length)
          { num_available := 0, profile := 0, name := "", capacity := [], fixed_cost := 0 }
          ).replaceAPN 1 veh (toString veh)) := rfl

/-- Distance matrices of the profile-builder result: one per vehicle. -/
theorem oneBreakResult_dists (data ndata : ProblemData) :
    (oneBreakResult data ndata).1.distance_matrices =
      (List.range data.num_vehicles).map
        (fun veh => (vehMats data.num_locations ndata.num_locations
          (data.num_locations + veh) (ndata.distance_matrix 0) (ndata.duration_matrix 0)).1) := rfl

/-- Duration matrices of the profile-builder result: one per vehicle. -/
theorem oneBreakResult_durs (data ndata : ProblemData) :
    (oneBreakResult data ndata).1.duration_matrices =
      (List.range data.num_vehicles).map
        (fun veh => (vehMats data.num_locations ndata.num_locations
          (data.num_locations + veh) (ndata.distance_matrix 0) (ndata.duration_matrix 0)).2) := rfl

/-- Clients are those of the synthesizer output. -/
theorem oneBreakResult_clients (data ndata : ProblemData) :
    (oneBreakResult data ndata).1.clients = ndata.clients := rfl

/-- Depots are those of the synthesizer output. -/
theorem oneBreakResult_depots (data ndata : ProblemData) :
    (oneBreakResult data ndata).1.depots = ndata.depots := rfl

/-- Break indices of the profile-builder result. -/
theorem oneBreakResult_snd (data ndata : ProblemData) :
    (oneBreakResult data ndata).2 =
      (List.range data.num_vehicles).map (fun i => data.num_locations + i) := rfl

/-- Location count of the profile-builder result. -/
theorem oneBreakResult_num_locations (data ndata : ProblemData) :
    (oneBreakResult data ndata).1.num_locations = ndata.num_locations := rfl

/-- Base matrices of the synthesizer output at profile 0: either the
instance has a profile and they are synthesized matrices of the expanded
size, or it has none and the accessor falls back to the empty matrix. -/
theorem synth_matrix0_cases (data : ProblemData) (nb di : Int) (mr zt : Bool)
    (obs : Option Int) (obtw : Option (Int × Int)) :
    (1 ≤ data.num_profiles ∧
      (synthResult data nb di mr zt obs obtw).1.distance_matrix 0
        = synthMat zt data.num_locations (data.num_locations + nb.toNat)
            (data.distance_matrix 0) ∧
      (synthResult data nb di mr zt obs obtw).1.duration_matrix 0
        = synthMat zt data.num_locations (data.num_locations + nb.toNat)
            (data.duration_matrix 0)) ∨
    (data.num_profiles = 0 ∧
      (synthResult data nb di mr zt obs obtw).1.distance_matrix 0 = npZeros 0 ∧
      (synthResult data nb di mr zt obs obtw).1.duration_matrix 0 = npZeros 0) := by
  by_cases hP : 1 ≤ data.num_profiles
  · exact Or.inl ⟨hP, synth_distance_matrix data nb di mr zt obs obtw 0 (by omega),
      synth_duration_matrix data nb di mr zt obs obtw 0 (by omega)⟩
  · have hP0 : data.num_profiles = 0 := by omega
    refine Or.inr ⟨hP0, ?_, ?_⟩
    · rw [ProblemData.distance_matrix, synthResult_fst_dists, hP0]
      rfl
    · rw [ProblemData.duration_matrix, synthResult_fst_durs, hP0]
      rfl

/-- No-expansion form of the per-vehicle matrix pair. -/
theorem vehMats_noexp (o n a : Nat) (bd bu : NpMat) (hd : bd.rows = n) :
    vehMats o n a bd bu =
      (fillDiagonal (forbidBreaks bd o n a) 0,
       fillDiagonal (forbidBreaks bu o n a) 0) := by
  unfold vehMats
  rw [if_neg (not_not_intro hd)]

/-- Expansion form of the per-vehicle matrix pair. -/
theorem vehMats_exp (o n a : Nat) (bd bu : NpMat) (hd : bd.rows ≠ n) :
    vehMats o n a bd bu =
      (fillDiagonal (forbidBreaks (setBlock (npFull n MAX_VALUE) 0 o 0 o bd.entry) o n a) 0,
       fillDiagonal (forbidBreaks (setBlock (npFull n MAX_VALUE) 0 o 0 o bu.entry) o n a) 0) := by
  unfold vehMats
  rw [if_pos hd]

/-- Shape and zero diagonal of the per-vehicle matrix pair, when either
both bases already have the expanded size, or the distance base does not
(so both are re-expanded). -/
theorem vehMats_shape_diag (o n a : Nat) (bd bu : NpMat)
    (hcase : (bd.rows = n ∧ bd.cols = n ∧ bu.rows = n ∧ bu.cols = n) ∨ bd.rows ≠ n) :
    (vehMats o n a bd bu).1.rows = n ∧ (vehMats o n a bd bu).1.cols = n ∧
    (vehMats o n a bd bu).2.rows = n ∧ (vehMats o n a bd bu).2.cols = n ∧
    (∀ i, i < n → (vehMats o n a bd bu).1.entry i i = 0) ∧
    (∀ i, i < n → (vehMats o n a bd bu).2.entry i i = 0) := by
  cases hcase with
  | inl hall =>
    obtain ⟨h1, h2, h3, h4⟩ := hall
    rw [vehMats_noexp o n a bd bu h1]
    refine ⟨by simp [h1], by simp [h2], by simp [h3], by simp [h4], ?_, ?_⟩
    · intro i hi
      rw [fillDiagonal_entry, if_pos]
      simp [forbidBreaks_rows, forbidBreaks_cols, h1, h2, hi]
    · intro i hi
      rw [fillDiagonal_entry, if_pos]
      simp [forbidBreaks_rows, forbidBreaks_cols, h3, h4, hi]
  | inr hd =>
    rw [vehMats_exp o n a bd bu hd]
    refine ⟨by simp [npFull], by simp [npFull], by simp [npFull], by simp [npFull], ?_, ?_⟩
    · intro i hi
      rw [fillDiagonal_entry, if_pos]
      simp [npFull, hi]
    · intro i hi
      rw [fillDiagonal_entry, if_pos]
      simp [npFull, hi]

/-! ## Claim C5 -/

/-- C5: every matrix produced by `add_per_vehicle_break_nodes` (any
profile, any flags) and by `add_one_break_per_vehicle` (every vehicle's
profile) is square of the new total location count and has a zero
diagonal. -/
theorem C5_square_zero_diagonal :
    (∀ (data : ProblemData) (nb di : Int) (mr zt : Bool) (obs : Option Int)
      (obtw : Option (Int × Int)) (out : ProblemData) (bis : List Nat), 1 ≤ nb →
      add_per_vehicle_break_nodes data nb di mr zt obs obtw = Except.ok (out, bis) →
      ∀ M ∈ out.distance_matrices ++ out.duration_matrices,
        M.rows = out.num_locations ∧ M.cols = out.num_locations ∧
        ∀ i, i < out.num_locations → M.entry i i = 0) ∧
    (∀ (data : ProblemData) (bsv : Int) (btw : Int × Int) (di : Int)
      (out : ProblemData) (bis : List Nat), 1 ≤ data.num_vehicles →
      add_one_break_per_vehicle data bsv btw di = Except.ok (out, bis) →
      ∀ M ∈ out.distance_matrices ++ out.duration_matrices,
        M.rows = out.num_locations ∧ M.cols = out.num_locations ∧
        ∀ i, i < out.num_locations → M.entry i i = 0) := by
  constructor
  · intro data nb di mr zt obs obtw out bis h1 h M hM
    obtain ⟨_, ho, _⟩ := add_per_vehicle_ok_inv data nb di mr zt obs obtw out bis h1 h
    subst ho
    rw [synthResult_num_locations]
    rw [synthResult_fst_dists, synthResult_fst_durs] at hM
    have hM' : ∃ p, M = synthMat zt data.num_locations
        (data.num_locations + nb.toNat) (data.distance_matrix p) ∨
        M = synthMat zt data.num_locations
        (data.num_locations + nb.toNat) (data.duration_matrix p) := by
      rcases List.mem_append.mp hM with hm | hm
      · obtain ⟨p, _, hpm⟩ := List.mem_map.mp hm
        exact ⟨p, Or.inl hpm.symm⟩
      · obtain ⟨p, _, hpm⟩ := List.mem_map.mp hm
        exact ⟨p, Or.inr hpm.symm⟩
    obtain ⟨p, hM'⟩ := hM'
    cases hM' with
    | inl hMe =>
      subst hMe
      exact ⟨synthMat_rows zt _ _ _, synthMat_cols zt _ _ _,
        fun i hi => synthMat_entry_diag zt _ _ _ i hi⟩
    | inr hMe =>
      subst hMe
      exact ⟨synthMat_rows zt _ _ _, synthMat_cols zt _ _ _,
        fun i hi => synthMat_entry_diag zt _ _ _ i hi⟩
  · intro data bsv btw di out bis h1 h M hM
    obtain ⟨_, ho, _⟩ := add_one_break_ok_inv data bsv btw di out bis (by omega) h
    subst ho
    rw [oneBreakResult_num_locations]
    rw [oneBreakResult_dists, oneBreakResult_durs] at hM
    have hKn : ((data.num_vehicles : Int)).toNat = data.num_vehicles := Int.toNat_natCast _
    have hnn : (synthResult data (data.num_vehicles : Int) di true true
        (some bsv) (some btw)).1.num_locations
        = data.num_locations + data.num_vehicles := by
      rw [synthResult_num_locations, hKn]
    have hcase : ((synthResult data (data.num_vehicles : Int) di true true
          (some bsv) (some btw)).1.distance_matrix 0).rows
          = (synthResult data (data.num_vehicles : Int) di true true
          (some bsv) (some btw)).1.num_locations ∧
        ((synthResult data (data.num_vehicles : Int) di true true
          (some bsv) (some btw)).1.distance_matrix 0).cols
          = (synthResult data (data.num_vehicles : Int) di true true
          (some bsv) (some btw)).1.num_locations ∧
        ((synthResult data (data.num_vehicles : Int) di true true
          (some bsv) (some btw)).1.duration_matrix 0).rows
          = (synthResult data (data.num_vehicles : Int) di true true
          (some bsv) (some btw)).1.num_locations ∧
        ((synthResult data (data.num_vehicles : Int) di true true
          (some bsv) (some btw)).1.duration_matrix 0).cols
          = (synthResult data (data.num_vehicles : Int) di true true
          (some bsv) (some btw)).1.num_locations ∨
        ((synthResult data (data.num_vehicles : Int) di true true
          (some bsv) (some btw)).1.distance_matrix 0).rows
          ≠ (synthResult data (data.num_vehicles : Int) di true true
          (some bsv) (some btw)).1.num_locations := by
      rcases synth_matrix0_cases data (data.num_vehicles : Int) di true true
          (some bsv) (some btw) with ⟨_, hd, hu⟩ | ⟨_, hd, _⟩
      · left
        rw [hd, hu, hnn, hKn]
        exact ⟨synthMat_rows _ _ _ _, synthMat_cols _ _ _ _,
          synthMat_rows _ _ _ _, synthMat_cols _ _ _ _⟩
      · right
        rw [hd, hnn]
        simp only [npZeros]
        omega
    rcases List.mem_append.mp hM with hm | hm
    · obtain ⟨veh, _, hpm⟩ := List.mem_map.mp hm
      subst hpm
      obtain ⟨a1, a2, _, _, a5, _⟩ := vehMats_shape_diag data.num_locations _ _ _ _ hcase
      exact ⟨a1, a2, a5⟩
    · obtain ⟨veh, _, hpm⟩ := List.mem_map.mp hm
      subst hpm
      obtain ⟨_, _, a3, a4, _, a6⟩ := vehMats_shape_diag data.num_locations _ _ _ _ hcase
      exact ⟨a3, a4, a6⟩

/-- Witness for C5 at the example instance, for both transformations. -/
theorem C5_witness :
    ((1 : Int) ≤ 2 ∧
      (∀ M ∈ (okPD (add_per_vehicle_break_nodes exData 2 0 true true none none)).distance_matrices
          ++ (okPD (add_per_vehicle_break_nodes exData 2 0 true true none none)).duration_matrices,
        M.rows = (okPD (add_per_vehicle_break_nodes exData 2 0 true true none none)).num_locations ∧
        M.cols = (okPD (add_per_vehicle_break_nodes exData 2 0 true true none none)).num_locations ∧
        ∀ i, i < (okPD (add_per_vehicle_break_nodes exData 2 0 true true none none)).num_locations →
          M.entry i i = 0)) ∧
    (1 ≤ exData.num_vehicles ∧
      (∀ M ∈ (okPD (add_one_break_per_vehicle exData 9 (600, 700) 0)).distance_matrices
          ++ (okPD (add_one_break_per_vehicle exData 9 (600, 700) 0)).duration_matrices,
        M.rows = (okPD (add_one_break_per_vehicle exData 9 (600, 700) 0)).num_locations ∧
        M.cols = (okPD (add_one_break_per_vehicle exData 9 (600, 700) 0)).num_locations ∧
        ∀ i, i < (okPD (add_one_break_per_vehicle exData 9 (600, 700) 0)).num_locations →
          M.entry i i = 0)) :=
  ⟨⟨by norm_num,
    C5_square_zero_diagonal.1 exData 2 0 true true none none
      (okPD (add_per_vehicle_break_nodes exData 2 0 true true none none))
      (okBis (add_per_vehicle_break_nodes exData 2 0 true true none none))
      (by norm_num) rfl⟩,
   ⟨by decide,
    C5_square_zero_diagonal.2 exData 9 (600, 700) 0
      (okPD (add_one_break_per_vehicle exData 9 (600, 700) 0))
      (okBis (add_one_break_per_vehicle exData 9 (600, 700) 0))
      (by decide) rfl⟩⟩

/-! ## Entry characterization of the forbid loop -/

/-- Entry of a single forbid step. -/
theorem forbidOne_entry (a : Nat) (m : NpMat) (b i j : Nat) :
    (forbidOne a m b).entry i j =
      if b ≠ a ∧ ((j = b ∧ i < m.rows) ∨ (i = b ∧ j < m.cols)) then MAX_VALUE
      else m.entry i j := by
  unfold forbidOne
  by_cases hba : b = a
  · rw [if_pos hba, if_neg (by tauto)]
  · rw [if_neg hba, setCol_entry, setRow_entry]
    simp only [show (setRow m b MAX_VALUE).rows = m.rows from rfl,
      show (setRow m b MAX_VALUE).cols = m.cols from rfl]
    split_ifs <;> first | rfl | tauto

/-- Entry of the forbid iteration over `n` break indices starting at
`b`: positions in a forbidden row or column hold the sentinel, others
are unchanged. -/
theorem forbidBreaksAux_entry (a : Nat) :
    ∀ (n b : Nat) (m : NpMat) (i j : Nat),
    (forbidBreaksAux a m b n).entry i j =
      if (b ≤ i ∧ i < b + n ∧ i ≠ a ∧ j < m.cols) ∨ (b ≤ j ∧ j < b + n ∧ j ≠ a ∧ i < m.rows)
      then MAX_VALUE else m.entry i j := by
  intro n
  induction n with
  | zero =>
    intro b m i j
    rw [forbidBreaksAux, if_neg (by omega)]
  | succ n ih =>
    intro b m i j
    rw [forbidBreaksAux, ih (b + 1) (forbidOne a m b) i j]
    rw [forbidOne_rows, forbidOne_cols, forbidOne_entry]
    split_ifs <;> first | rfl | omega

/-- Entry of the forbid loop over a half-open range: positions in a
forbidden row or column hold the sentinel, others are unchanged. -/
theorem forbidBreaks_entry (m : NpMat) (lo hi a : Nat) (hlh : lo ≤ hi) (i j : Nat) :
    (forbidBreaks m lo hi a).entry i j =
      if (lo ≤ i ∧ i < hi ∧ i ≠ a ∧ j < m.cols) ∨ (lo ≤ j ∧ j < hi ∧ j ≠ a ∧ i < m.rows)
      then MAX_VALUE else m.entry i j := by
  unfold forbidBreaks
  rw [forbidBreaksAux_entry]
  split_ifs <;> first | rfl | omega

/-- Entry facts for one vehicle's matrix as built by the profile
builder from a `zero_travel` synthesized base: original entries are
kept, the assigned break node has zero-cost edges, and every other
break node's row and column hold the sentinel off the diagonal. -/
theorem vehMat_entry_props (o K v : Nat) (hv : v < K) (base0 : NpMat) :
    (∀ i j, i < o → j < o → i ≠ j →
      (fillDiagonal (forbidBreaks (synthMat true o (o + K) base0) o (o + K) (o + v)) 0).entry i j
        = base0.entry i j) ∧
    (∀ i, i < o →
      (fillDiagonal (forbidBreaks (synthMat true o (o + K) base0) o (o + K) (o + v)) 0).entry i (o + v) = 0 ∧
      (fillDiagonal (forbidBreaks (synthMat true o (o + K) base0) o (o + K) (o + v)) 0).entry (o + v) i = 0) ∧
    (∀ b, o ≤ b → b < o + K → b ≠ o + v → ∀ j, j < o + K → j ≠ b →
      (fillDiagonal (forbidBreaks (synthMat true o (o + K) base0) o (o + K) (o + v)) 0).entry b j = MAX_VALUE ∧
      (fillDiagonal (forbidBreaks (synthMat true o (o + K) base0) o (o + K) (o + v)) 0).entry j b = MAX_VALUE) := by
  have hent : ∀ i j,
      (fillDiagonal (forbidBreaks (synthMat true o (o + K) base0) o (o + K) (o + v)) 0).entry i j
        = if i = j ∧ i < o + K ∧ j < o + K then 0
          else if (o ≤ i ∧ i < o + K ∧ i ≠ o + v ∧ j < o + K)
              ∨ (o ≤ j ∧ j < o + K ∧ j ≠ o + v ∧ i < o + K) then MAX_VALUE
          else (synthMat true o (o + K) base0).entry i j := by
    intro i j
    rw [fillDiagonal_entry, forbidBreaks_entry _ _ _ _ (by omega)]
    simp only [forbidBreaks_rows, forbidBreaks_cols, synthMat_rows, synthMat_cols]
  refine ⟨?_, ?_, ?_⟩
  · intro i j hi hj hne
    rw [hent, if_neg (by omega), if_neg (by omega)]
    exact synthMat_entry_topLeft true o (o + K) base0 i j hi hj hne
  · intro i hi
    constructor
    · rw [hent, if_neg (by omega), if_neg (by omega)]
      exact synthMat_entry_new_zero o (o + K) base0 i (o + v) (Or.inr (by omega)) (by omega)
    · rw [hent, if_neg (by omega), if_neg (by omega)]
      exact synthMat_entry_new_zero o (o + K) base0 (o + v) i (Or.inl (by omega)) (by omega)
  · intro b hb1 hb2 hba j hj hjb
    constructor
    · rw [hent, if_neg (by omega), if_pos (by omega)]
    · rw [hent, if_neg (by omega), if_pos (by omega)]

/-! ## Claim C1 -/

/-- C1: for a successful `add_one_break_per_vehicle` call on an instance
with at least one routing profile, vehicle `v`'s distance and duration
matrices keep all entries between depots and original clients unchanged
from the base matrices, give the assigned break node `old_count + v`
zero-cost edges to and from every original location, and hold the
sentinel `MAX_VALUE` on the entire row and column of every other break
node except at the diagonal. -/
theorem C1_per_vehicle_reachability (data : ProblemData) (bsv : Int)
    (btw : Int × Int) (di : Int) (out : ProblemData) (bis : List Nat)
    (v : Nat) (Md Mu : NpMat)
    (hP : 1 ≤ data.num_profiles)
    (h : add_one_break_per_vehicle data bsv btw di = Except.ok (out, bis))
    (hv : v < data.num_vehicles)
    (hDm : out.distance_matrices[v]? = some Md)
    (hUm : out.duration_matrices[v]? = some Mu) :
    (∀ i j, i < data.num_locations → j < data.num_locations → i ≠ j →
      Md.entry i j = (data.distance_matrix 0).entry i j ∧
      Mu.entry i j = (data.duration_matrix 0).entry i j) ∧
    (∀ i, i < data.num_locations →
      Md.entry i (data.num_locations + v) = 0 ∧
      Md.entry (data.num_locations + v) i = 0 ∧
      Mu.entry i (data.num_locations + v) = 0 ∧
      Mu.entry (data.num_locations + v) i = 0) ∧
    (∀ b, data.num_locations ≤ b → b < data.num_locations + data.num_vehicles →
      b ≠ data.num_locations + v →
      ∀ j, j < data.num_locations + data.num_vehicles → j ≠ b →
        Md.entry b j = MAX_VALUE ∧ Md.entry j b = MAX_VALUE ∧
        Mu.entry b j = MAX_VALUE ∧ Mu.entry j b = MAX_VALUE) := by
  obtain ⟨_, ho, _⟩ := add_one_break_ok_inv data bsv btw di out bis (by omega) h
  subst ho
  have hKn : ((data.num_vehicles : Int)).toNat = data.num_vehicles := Int.toNat_natCast _
  have hbd : (synthResult data (data.num_vehicles : Int) di true true
      (some bsv) (some btw)).1.distance_matrix 0
      = synthMat true data.num_locations (data.num_locations + data.num_vehicles)
        (data.distance_matrix 0) := by
    rw [synth_distance_matrix data (data.num_vehicles : Int) di true true
      (some bsv) (some btw) 0 (by omega), hKn]
  have hbu : (synthResult data (data.num_vehicles : Int) di true true
      (some bsv) (some btw)).1.duration_matrix 0
      = synthMat true data.num_locations (data.num_locations + data.num_vehicles)
        (data.duration_matrix 0) := by
    rw [synth_duration_matrix data (data.num_vehicles : Int) di true true
      (some bsv) (some btw) 0 (by omega), hKn]
  have hnn : (synthResult data (data.num_vehicles : Int) di true true
      (some bsv) (some btw)).1.num_locations
      = data.num_locations + data.num_vehicles := by
    rw [synthResult_num_locations, hKn]
  have hMd : Md = fillDiagonal (forbidBreaks
      (synthMat true data.num_locations (data.num_locations + data.num_vehicles)
        (data.distance_matrix 0))
      data.num_locations (data.num_locations + data.num_vehicles)
      (data.num_locations + v)) 0 := by
    rw [oneBreakResult_dists, List.getElem?_map, List.getElem?_range hv] at hDm
    simp only [Option.map_some'] at hDm
    have := Option.some.inj hDm
    rw [← this, vehMats_noexp _ _ _ _ _ (by rw [hbd, hnn]; exact synthMat_rows _ _ _ _),
      hbd, hnn]
  have hMu : Mu = fillDiagonal (forbidBreaks
      (synthMat true data.num_locations (data.num_locations + data.num_vehicles)
        (data.duration_matrix 0))
      data.num_locations (data.num_locations + data.num_vehicles)
      (data.num_locations + v)) 0 := by
    rw [oneBreakResult_durs, List.getElem?_map, List.getElem?_range hv] at hUm
    simp only [Option.map_some'] at hUm
    have := Option.some.inj hUm
    rw [← this, vehMats_noexp _ _ _ _ _ (by rw [hbd, hnn]; exact synthMat_rows _ _ _ _),
      hbu, hnn]
  subst hMd
  subst hMu
  obtain ⟨d1, d2, d3⟩ := vehMat_entry_props data.num_locations data.num_vehicles v hv
    (data.distance_matrix 0)
  obtain ⟨u1, u2, u3⟩ := vehMat_entry_props data.num_locations data.num_vehicles v hv
    (data.duration_matrix 0)
  refine ⟨?_, ?_, ?_⟩
  · intro i j hi hj hne
    exact ⟨d1 i j hi hj hne, u1 i j hi hj hne⟩
  · intro i hi
    exact ⟨(d2 i hi).1, (d2 i hi).2, (u2 i hi).1, (u2 i hi).2⟩
  · intro b hb1 hb2 hba j hj hjb
    exact ⟨(d3 b hb1 hb2 hba j hj hjb).1, (d3 b hb1 hb2 hba j hj hjb).2,
      (u3 b hb1 hb2 hba j hj hjb).1, (u3 b hb1 hb2 hba j hj hjb).2⟩

/-- Witness for C1 at the example instance (three vehicles), for
vehicle 1. -/
theorem C1_witness :
    1 ≤ exData.num_profiles ∧ 1 < exData.num_vehicles ∧
    ((∀ i j, i < exData.num_locations → j < exData.num_locations → i ≠ j →
      ((okPD (add_one_break_per_vehicle exData 9 (600, 700) 0)).distance_matrices.getD 1 (npZeros 0)).entry i j
        = (exData.distance_matrix 0).entry i j ∧
      ((okPD (add_one_break_per_vehicle exData 9 (600, 700) 0)).duration_matrices.getD 1 (npZeros 0)).entry i j
        = (exData.duration_matrix 0).entry i j) ∧
    (∀ i, i < exData.num_locations →
      ((okPD (add_one_break_per_vehicle exData 9 (600, 700) 0)).distance_matrices.getD 1 (npZeros 0)).entry i (exData.num_locations + 1) = 0 ∧
      ((okPD (add_one_break_per_vehicle exData 9 (600, 700) 0)).distance_matrices.getD 1 (npZeros 0)).entry (exData.num_locations + 1) i = 0 ∧
      ((okPD (add_one_break_per_vehicle exData 9 (600, 700) 0)).duration_matrices.getD 1 (npZeros 0)).entry i (exData.num_locations + 1) = 0 ∧
      ((okPD (add_one_break_per_vehicle exData 9 (600, 700) 0)).duration_matrices.getD 1 (npZeros 0)).entry (exData.num_locations + 1) i = 0) ∧
    (∀ b, exData.num_locations ≤ b → b < exData.num_locations + exData.num_vehicles →
      b ≠ exData.num_locations + 1 →
      ∀ j, j < exData.num_locations + exData.num_vehicles → j ≠ b →
        ((okPD (add_one_break_per_vehicle exData 9 (600, 700) 0)).distance_matrices.getD 1 (npZeros 0)).entry b j = MAX_VALUE ∧
        ((okPD (add_one_break_per_vehicle exData 9 (600, 700) 0)).distance_matrices.getD 1 (npZeros 0)).entry j b = MAX_VALUE ∧
        ((okPD (add_one_break_per_vehicle exData 9 (600, 700) 0)).duration_matrices.getD 1 (npZeros 0)).entry b j = MAX_VALUE ∧
        ((okPD (add_one_break_per_vehicle exData 9 (600, 700) 0)).duration_matrices.getD 1 (npZeros 0)).entry j b = MAX_VALUE)) :=
  ⟨by decide, by decide,
   C1_per_vehicle_reachability exData 9 (600, 700) 0
     (okPD (add_one_break_per_vehicle exData 9 (600, 700) 0))
     (okBis (add_one_break_per_vehicle exData 9 (600, 700) 0)) 1
     ((okPD (add_one_break_per_vehicle exData 9 (600, 700) 0)).distance_matrices.getD 1 (npZeros 0))
     ((okPD (add_one_break_per_vehicle exData 9 (600, 700) 0)).duration_matrices.getD 1 (npZeros 0))
     (by decide) rfl (by decide) rfl rfl⟩

/-! ## Injectivity of the decimal rendering of naturals, used for the
display-name uniqueness claims -/

/-- Fuelled core rendering agrees with the structural one when the fuel
suffices. -/
theorem toDigitsCore_eq_natRepChars :
    ∀ (fuel n : Nat) (ds : List Char), n < fuel →
      Nat.toDigitsCore 10 fuel n ds = natRepChars n ++ ds := by
  intro fuel
  induction fuel with
  | zero =>
    intro n ds h
    exact absurd h (Nat.not_lt_zero n)
  | succ fuel ih =>
    intro n ds h
    rw [natRepChars]
    simp only [Nat.toDigitsCore]
    by_cases h10 : n < 10
    · have hz : n / 10 = 0 := Nat.div_eq_of_lt h10
      rw [if_pos hz, dif_pos h10, Nat.mod_eq_of_lt h10]
      rfl
    · have hz : 0 < n / 10 := Nat.div_pos (by omega) (by omega)
      rw [if_neg (by omega), dif_neg h10]
      have hlt : n / 10 < fuel := by
        have := Nat.div_lt_self (show 0 < n by omega) (show 1 < 10 by omega)
        omega
      rw [ih (n / 10) (Nat.digitChar (n % 10) :: ds) hlt, List.append_assoc]
      rfl

/-- Decimal rendering of a natural equals the structural rendering. -/
theorem natRepr_eq (n : Nat) : Nat.repr n = (natRepChars n).asString := by
  show (Nat.toDigits 10 n).asString = (natRepChars n).asString
  rw [Nat.toDigits, toDigitsCore_eq_natRepChars (n + 1) n [] (by omega), List.append_nil]

/-- Decimal digit characters decode back to their value. -/
theorem digitChar_decode : ∀ k, k < 10 → (Nat.digitChar k).toNat - 48 = k := by decide

/-- Decoding is a left inverse of the structural rendering. -/
theorem natDecodeChars_repChars (n : Nat) : natDecodeChars (natRepChars n) = n := by
  induction n using Nat.strong_induction_on with
  | _ n ih =>
    rw [natRepChars]
    by_cases h10 : n < 10
    · rw [dif_pos h10]
      unfold natDecodeChars
      simp only [List.foldl_cons, List.foldl_nil, Nat.zero_mul, Nat.zero_add]
      exact digitChar_decode n h10
    · rw [dif_neg h10]
      unfold natDecodeChars
      rw [List.foldl_append]
      have hdiv : n / 10 < n := Nat.div_lt_self (by omega) (by omega)
      have hrec := ih (n / 10) hdiv
      unfold natDecodeChars at hrec
      rw [hrec]
      simp only [List.foldl_cons, List.foldl_nil]
      rw [digitChar_decode (n % 10) (Nat.mod_lt n (by omega))]
      omega

/-- The structural rendering is injective. -/
theorem natRepChars_inj {m n : Nat} (h : natRepChars m = natRepChars n) : m = n := by
  have h2 := congrArg natDecodeChars h
  rwa [natDecodeChars_repChars, natDecodeChars_repChars] at h2

/-- Decimal string rendering of naturals is injective. -/
theorem natToString_inj : Function.Injective (fun n : Nat => toString n) := by
  intro m n h
  have h1 : Nat.repr m = Nat.repr n := h
  rw [natRepr_eq, natRepr_eq] at h1
  have h2 : natRepChars m = natRepChars n := congrArg String.data h1
  exact natRepChars_inj h2

/-- Break-client display names are injective in the break number. -/
theorem breakName_inj : Function.Injective (fun i : Nat => "break_" ++ toString i) := by
  intro m n h
  have h2 := congrArg String.data h
  rw [String.data_append, String.data_append] at h2
  have h3 : (toString m).data = (toString n).data := List.append_cancel_left h2
  exact natToString_inj (String.ext h3)

/-! ## Claim C3 -/

/-- C3: after a successful `add_one_break_per_vehicle` call on a
non-empty fleet, there are exactly `num_vehicles` vehicle types; type
`v` is the round-robin clone of the original types with availability 1,
profile id `v` and display name `toString v`; hence every type has
availability 1, profile ids are exactly the vehicle indices, and the
display names are pairwise distinct. -/
theorem C3_vehicle_type_replacement (data : ProblemData) (bsv : Int)
    (btw : Int × Int) (di : Int) (out : ProblemData) (bis : List Nat)
    (hn : 1 ≤ data.num_vehicles)
    (h : add_one_break_per_vehicle data bsv btw di = Except.ok (out, bis)) :
    out.vehicle_types.length = data.num_vehicles ∧
    (∀ v, v < data.num_vehicles →
      out.vehicle_types[v]? = some
        ((data.vehicle_types.getD (v % data.vehicle_types.length)
          { num_available := 0, profile := 0, name := "", capacity := [], fixed_cost := 0 }
          ).replaceAPN 1 v (toString v))) ∧
    (∀ vt ∈ out.vehicle_types, vt.num_available = 1) ∧
    (∀ (v : Nat) (vt : VehicleType), out.vehicle_types[v]? = some vt → vt.profile = v) ∧
    (out.vehicle_types.map VehicleType.name).Nodup := by
  obtain ⟨_, ho, _⟩ := add_one_break_ok_inv data bsv btw di out bis (by omega) h
  subst ho
  rw [oneBreakResult_vtypes]
  refine ⟨by simp, ?_, ?_, ?_, ?_⟩
  · intro v hv
    rw [List.getElem?_map, List.getElem?_range hv, Option.map_some']
  · intro vt hvt
    obtain ⟨v, _, hveq⟩ := List.mem_map.mp hvt
    rw [← hveq]
    rfl
  · intro v vt hvt
    rw [List.getElem?_map] at hvt
    by_cases hv : v < data.num_vehicles
    · rw [List.getElem?_range hv, Option.map_some'] at hvt
      rw [← Option.some.inj hvt]
      rfl
    · rw [List.getElem?_eq_none (by rw [List.length_range]; omega)] at hvt
      exact absurd hvt (by simp)
  · rw [List.map_map]
    have hcomp : (VehicleType.name ∘ fun veh =>
        (data.vehicle_types.getD (veh % data.vehicle_types.length)
          { num_available := 0, profile := 0, name := "", capacity := [], fixed_cost := 0 }
          ).replaceAPN 1 veh (toString veh))
        = fun veh : Nat => toString veh := funext fun veh => rfl
    rw [hcomp]
    exact List.Nodup.map natToString_inj (List.nodup_range _)

/-- Witness for C3 at the example instance with three vehicles over two
original types. -/
theorem C3_witness :
    1 ≤ exData.num_vehicles ∧
    ((okPD (add_one_break_per_vehicle exData 9 (600, 700) 0)).vehicle_types.length
        = exData.num_vehicles ∧
    (∀ v, v < exData.num_vehicles →
      (okPD (add_one_break_per_vehicle exData 9 (600, 700) 0)).vehicle_types[v]? = some
        ((exData.vehicle_types.getD (v % exData.vehicle_types.length)
          { num_available := 0, profile := 0, name := "", capacity := [], fixed_cost := 0 }
          ).replaceAPN 1 v (toString v))) ∧
    (∀ vt ∈ (okPD (add_one_break_per_vehicle exData 9 (600, 700) 0)).vehicle_types,
      vt.num_available = 1) ∧
    (∀ (v : Nat) (vt : VehicleType),
      (okPD (add_one_break_per_vehicle exData 9 (600, 700) 0)).vehicle_types[v]? = some vt →
      vt.profile = v) ∧
    ((okPD (add_one_break_per_vehicle exData 9 (600, 700) 0)).vehicle_types.map
      VehicleType.name).Nodup) :=
  ⟨by decide,
   C3_vehicle_type_replacement exData 9 (600, 700) 0
     (okPD (add_one_break_per_vehicle exData 9 (600, 700) 0))
     (okBis (add_one_break_per_vehicle exData 9 (600, 700) 0))
     (by decide) rfl⟩

/-! ## Claim C8 -/

/-- C8: every break client appended by a successful
`add_per_vehicle_break_nodes` call inherits the reference depot's
coordinates, has all-zero delivery and pickup, takes its service
duration and time window from the overrides when given and from the
defaults (depot service duration, window 660..840) otherwise, has the
required flag per input, release time 0, prize 0, and the break clients
carry pairwise distinct display names. -/
theorem C8_break_client_fields (data : ProblemData) (nb di : Int) (mr zt : Bool)
    (obs : Option Int) (obtw : Option (Int × Int)) (out : ProblemData) (bis : List Nat)
    (h1 : 1 ≤ nb)
    (h : add_per_vehicle_break_nodes data nb di mr zt obs obtw = Except.ok (out, bis)) :
    (∀ i, i < nb.toNat → ∀ c, out.clients[data.clients.length + i]? = some c →
      c.x = (refDepot data di).x ∧ c.y = (refDepot data di).y ∧
      (∀ d ∈ c.delivery, d = 0) ∧ (∀ d ∈ c.pickup, d = 0) ∧
      (obs = none → c.service_duration = (refDepot data di).service_duration) ∧
      (∀ s, obs = some s → c.service_duration = s) ∧
      (obtw = none → c.tw_early = 660 ∧ c.tw_late = 840) ∧
      (∀ t, obtw = some t → c.tw_early = t.1 ∧ c.tw_late = t.2) ∧
      c.required = mr ∧ c.release_time = 0 ∧ c.prize = 0 ∧
      c.name = "break_" ++ toString i) ∧
    ((out.clients.drop data.clients.length).map Client.name).Nodup := by
  obtain ⟨_, ho, _⟩ := add_per_vehicle_ok_inv data nb di mr zt obs obtw out bis h1 h
  subst ho
  rw [synthResult_fst_clients]
  constructor
  · intro i hi c hc
    rw [List.getElem?_append_right (by omega)] at hc
    have hidx : data.clients.length + i - data.clients.length = i := by omega
    rw [hidx, List.getElem?_map, List.getElem?_range hi, Option.map_some'] at hc
    rw [← Option.some.inj hc]
    refine ⟨rfl, rfl, by simp [breakClient], by simp [breakClient], ?_, ?_, ?_, ?_,
      rfl, rfl, rfl, rfl⟩
    · intro hobs
      show breakServiceVal (refDepot data di) obs = (refDepot data di).service_duration
      rw [hobs]
      rfl
    · intro s hobs
      show breakServiceVal (refDepot data di) obs = s
      rw [hobs]
      rfl
    · intro hotw
      constructor
      · show breakTwEarly obtw = 660
        rw [hotw]
        rfl
      · show breakTwLate obtw = 840
        rw [hotw]
        rfl
    · intro t hotw
      constructor
      · show breakTwEarly obtw = t.1
        rw [hotw]
        rfl
      · show breakTwLate obtw = t.2
        rw [hotw]
        rfl
  · rw [List.drop_left, List.map_map]
    have hcomp : (Client.name ∘ breakClient (refDepot data di)
        (breakServiceVal (refDepot data di) obs) (breakTwEarly obtw) (breakTwLate obtw) mr)
        = fun i : Nat => "break_" ++ toString i := funext fun i => rfl
    rw [hcomp]
    exact List.Nodup.map breakName_inj (List.nodup_range _)

/-- Witness for C8 at the example instance with two breaks and all
overrides left out. -/
theorem C8_witness :
    (1 : Int) ≤ 2 ∧
    ((∀ i, i < (2 : Int).toNat → ∀ c,
      (okPD (add_per_vehicle_break_nodes exData 2 0 true true none none)).clients[exData.clients.length + i]? = some c →
      c.x = (refDepot exData 0).x ∧ c.y = (refDepot exData 0).y ∧
      (∀ d ∈ c.delivery, d = 0) ∧ (∀ d ∈ c.pickup, d = 0) ∧
      ((none : Option Int) = none → c.service_duration = (refDepot exData 0).service_duration) ∧
      (∀ s, (none : Option Int) = some s → c.service_duration = s) ∧
      ((none : Option (Int × Int)) = none → c.tw_early = 660 ∧ c.tw_late = 840) ∧
      (∀ t, (none : Option (Int × Int)) = some t → c.tw_early = t.1 ∧ c.tw_late = t.2) ∧
      c.required = true ∧ c.release_time = 0 ∧ c.prize = 0 ∧
      c.name = "break_" ++ toString i) ∧
    (((okPD (add_per_vehicle_break_nodes exData 2 0 true true none none)).clients.drop
        exData.clients.length).map Client.name).Nodup) :=
  ⟨by norm_num,
   C8_break_client_fields exData 2 0 true true none none
     (okPD (add_per_vehicle_break_nodes exData 2 0 true true none none))
     (okBis (add_per_vehicle_break_nodes exData 2 0 true true none none))
     (by norm_num) rfl⟩
